import Mathlib

/-!
# shardhub/shards: librarian registry, transaction helper and Postgres engine

A shallow embedding of

* `pkg/starling/starling.go` (`Transaction`),
* `services/librarian/librarian.go` (`Librarian`, `Register`, `Databases`, `Get`,
  `CreaterOptions`),
* `services/librarian/databases/postgres/{postgres,sql,connection}.go`
  (`Create`, `List`, `DeleteExpired`, `list`, `insertDatabase`, `insertUser`,
  the administrative statements, `connect`, `Connect`, `Disconnect`, `Init`).

Modelling conventions.

* `time.Time` and `time.Duration` are integers (ticks); `t.Add(d)` is `t + d`.
* A Go `error` is `Option Err` (`none` is `nil`); `errors.Wrap` is `Err.wrap`.
* Pointer receivers and captured variables become explicit state passing.
* The two SQL connections are one `State`: the committed bookkeeping tables
  (what `p.managementDB` sees), the tables as seen inside the open `*sql.Tx`,
  the two `SERIAL` sequences, and the trace of every statement issued so far
  together with its outcome.
* Whether the backend executes a statement is decided by an `Oracle`, a
  function of the history and of the statement; the bookkeeping statements are
  additionally subject to the constraints declared in `createManagementTables`
  (primary keys, `UNIQUE (name)`, `UNIQUE (username)`, the foreign key).
* A Go map is an association list with distinct keys; `range` visits it in list
  order (one of the orders Go may choose).
* Panic values are never nil (Go 1.21 and later turn `panic(nil)` into a
  non-nil runtime error), so `recover() != nil` holds exactly when `fn` panicked.
-/

namespace Shards

/-! ## Errors, time -/

/-- Instants (`time.Time`), as integer ticks. -/
abbrev Time := Int

/-- Durations (`time.Duration`), as integer ticks. -/
abbrev Duration := Int

/-- Go error values. `pq code` is a `*pq.Error` with the given SQLSTATE code,
`wrap cause msg` is `errors.Wrap(cause, msg)`. -/
inductive Err where
  | pq (code : String)
  | other (msg : String)
  | wrap (cause : Err) (msg : String)
  deriving DecidableEq, Repr

/-- The value carried by a Go panic. -/
structure PanicValue where
  val : String
  deriving DecidableEq, Repr

/-! ## Bookkeeping tables (schema of `createManagementTables`) -/

/-- One row of table `databases`. -/
structure DatabaseRecord where
  id : Int
  name : String
  expiredAt : Option Time
  createdAt : Time
  deletedAt : Option Time
  deriving DecidableEq, Repr

/-- One row of table `users`. -/
structure UserRecord where
  id : Int
  username : String
  databaseId : Int
  createdAt : Time
  deletedAt : Option Time
  deriving DecidableEq, Repr

/-- The rows of both bookkeeping tables. -/
structure Tables where
  databases : List DatabaseRecord
  users : List UserRecord
  deriving DecidableEq, Repr

/-! ## Statements, traces, the backend oracle -/

/-- Every statement the engine sends, with its parameters, and the operations
on a connection to the database of the given name (`sql.Open`, `db.Ping`,
`db.Close`). -/
inductive Stmt where
  | beginTx
  | commit
  | rollback
  | insertDatabase (name : String) (createdAt : Time) (expiredAt : Time)
  | insertUser (username : String) (databaseId : Int) (createdAt : Time)
  | selectExpired (now : Time)
  | selectNoArgs
  | updateUser (deletedAt : Time) (id : Int)
  | deleteUser (id : Int)
  | updateDatabase (deletedAt : Time) (id : Int)
  | deleteDatabase (id : Int)
  | createDatabase (name : String)
  | dropDatabase (name : String)
  | createUser (username : String) (password : String)
  | dropUser (username : String)
  | grantAllPrivileges (database : String) (username : String)
  | createTableDatabases
  | createTableUsers
  | open (database : String)
  | ping (database : String)
  | close (database : String)
  deriving DecidableEq, Repr

/-- One issued statement and its outcome (`none`: it succeeded). -/
structure Event where
  stmt : Stmt
  err : Option Err
  deriving DecidableEq, Repr

/-- The backend as seen from the engine: given the history of the connection
and a statement, either the statement is executed (`none`) or it fails. -/
abbrev Oracle := List Event → Stmt → Option Err

/-- The state of the two connections of one engine. -/
structure State where
  tables : Tables
  tx : Option Tables
  dbSeq : Int
  userSeq : Int
  trace : List Event
  deriving DecidableEq, Repr

/-- Append an issued statement and its outcome to the trace. -/
def State.log (s : State) (st : Stmt) (e : Option Err) : State :=
  { s with trace := s.trace ++ [⟨st, e⟩] }

/-! ## `database/sql` transactions -/

/-- `db.BeginTx`: opens a transaction on the committed tables. -/
def BeginTx (o : Oracle) (s : State) : Option Err × State :=
  match o s.trace .beginTx with
  | some e => (some e, s.log .beginTx (some e))
  | none => (none, { s.log .beginTx none with tx := some s.tables })

/-- `tx.Rollback()`: the changes made inside the transaction are discarded.
The engine ignores the value returned. -/
def Rollback (s : State) : State :=
  { s.log .rollback none with tx := none }

/-- The error `sql.ErrTxDone`. -/
def ErrTxDone : Err := .other "sql: transaction has already been committed or rolled back"

/-- `tx.Commit()`: the tables of the transaction become the committed ones;
when the backend refuses, they are discarded. -/
def Commit (o : Oracle) (s : State) : Option Err × State :=
  match s.tx with
  | none => (some ErrTxDone, s.log .commit (some ErrTxDone))
  | some t =>
    match o s.trace .commit with
    | some e => (some e, { s.log .commit (some e) with tx := none })
    | none => (none, { s.log .commit none with tables := t, tx := none })

/-! ## `starling.Transaction` -/

/-- How a call of a Go function of result type `error` ends. -/
inductive FnResult where
  | returned (err : Option Err)
  | panicked (r : PanicValue)
  deriving DecidableEq, Repr

/-- `starling.Transaction(ctx, db, fn)`. The variables `fn` captures are the
component `L`. The deferred function is unfolded into the three ways `fn` can
end: a panic is recovered, rolled back and raised again; an error is rolled
back and returned; otherwise the result is that of `Commit`. -/
def Transaction {L : Type} (o : Oracle) (fn : L → State → FnResult × L × State)
    (l : L) (s : State) : FnResult × L × State :=
  match BeginTx o s with
  | (some err, s1) => (.returned (some (.wrap err "cannot begin transaction")), l, s1)
  | (none, s1) =>
    match fn l s1 with
    | (.panicked r, l2, s2) => (.panicked r, l2, Rollback s2)
    | (.returned (some err), l2, s2) => (.returned (some err), l2, Rollback s2)
    | (.returned none, l2, s2) =>
      match Commit o s2 with
      | (err, s3) => (.returned err, l2, s3)

/-! ## `librarian.Librarian` -/

/-- A registered engine (a non-nil value of interface `Database`). -/
structure Engine where
  ident : Nat
  deriving DecidableEq, Repr

/-- A value of interface type `Database`: `none` is the nil interface. -/
abbrev Database := Option Engine

/-- The registry: the map `databases` as an association list. -/
structure Librarian where
  databases : List (String × Engine)
  deriving DecidableEq, Repr

/-- `librarian.New()`. -/
def New : Librarian := ⟨[]⟩

/-- The map lookup `l.databases[name]`. -/
def Librarian.lookup (l : Librarian) (name : String) : Option Engine :=
  (l.databases.find? (fun kv => kv.1 == name)).map Prod.snd

/-- `(*Librarian).Register`. -/
def Register (l : Librarian) (name : String) (database : Database) : Librarian × Option Err :=
  match database with
  | none => (l, some (.other "librarian: Register database is nil"))
  | some d =>
    match l.lookup name with
    | some _ => (l, some (.other ("sql: Register called twice for database " ++ name)))
    | none => (⟨l.databases ++ [(name, d)]⟩, none)

/-- `sort.Strings`: ascending order of strings. -/
def sortStrings (list : List String) : List String :=
  list.insertionSort (· ≤ ·)

/-- `(*Librarian).Databases`. -/
def Databases (l : Librarian) : Librarian × List String :=
  (l, sortStrings (l.databases.map Prod.fst))

/-- `(*Librarian).Get`. -/
def Get (l : Librarian) (name : String) : Database :=
  match l.lookup name with
  | none => none
  | some database => some database

/-! ## Creation options (`librarian.go`) -/

/-- `librarian.DB`, the credential handed to the caller. -/
structure DB where
  Database : String
  Username : String
  Password : String
  ExpiredAt : Option Time
  deriving DecidableEq, Repr

/-- `librarian.CreaterOptions`. `Password` is a `*string`. -/
structure CreaterOptions where
  Database : String
  Username : String
  Password : Option String
  TTL : Duration
  DBNameGenerator : Unit → String
  UsernameGenerator : Unit → String
  PasswordGenerator : Unit → String

/-- `librarian.CreaterOption`. -/
abbrev CreaterOption := CreaterOptions → CreaterOptions

/-- `librarian.WithDatabase`. -/
def WithDatabase (database : String) : CreaterOption :=
  fun o => { o with Database := database }

/-- `librarian.WithUsername`. -/
def WithUsername (username : String) : CreaterOption :=
  fun o => { o with Username := username }

/-- `librarian.WithPassword`. -/
def WithPassword (password : String) : CreaterOption :=
  fun o => { o with Password := some password }

/-- `librarian.WithTTL`. -/
def WithTTL (ttl : Duration) : CreaterOption :=
  fun o => { o with TTL := ttl }

/-- The strings `uuid.New().String()` yields inside the three default generators. -/
structure UUIDs where
  dbName : String
  username : String
  password : String
  deriving DecidableEq, Repr

/-- `librarian.GenerateDBName`. -/
def GenerateDBName (u : UUIDs) : Unit → String := fun _ => "db_" ++ u.dbName

/-- `librarian.GenerateUsername`. -/
def GenerateUsername (u : UUIDs) : Unit → String := fun _ => "user_" ++ u.username

/-- `librarian.GeneratePassword`. -/
def GeneratePassword (u : UUIDs) : Unit → String := fun _ => u.password

/-- `time.Minute`, in nanosecond ticks. -/
def Minute : Duration := 60 * 1000000000

/-- `librarian.NewCreaterOptions`. -/
def NewCreaterOptions (u : UUIDs) (opts : List CreaterOption) : CreaterOptions :=
  opts.foldl (fun options opt => opt options)
    { Database := ""
      Username := ""
      Password := none
      TTL := 10 * Minute
      DBNameGenerator := GenerateDBName u
      UsernameGenerator := GenerateUsername u
      PasswordGenerator := GeneratePassword u }

/-! ## Administrative statements (`sql.go`) -/

/-- `if err != nil { return errors.Wrap(err, msg) }` applied to an outcome. -/
def wrapErr (msg : String) (r : Option Err × State) : Option Err × State :=
  match r with
  | (some err, s) => (some (.wrap err msg), s)
  | (none, s) => (none, s)

/-- `db.ExecContext(ctx, query)` on the root connection: the backend alone
decides, and the statement is recorded. -/
def rootExec (o : Oracle) (st : Stmt) (s : State) : Option Err × State :=
  (o s.trace st, s.log st (o s.trace st))

/-- `dropDatabase` of `sql.go`. -/
def dropDatabase (o : Oracle) (name : String) (s : State) : Option Err × State :=
  wrapErr "cannot drop database" (rootExec o (.dropDatabase name) s)

/-- `createDatabase` of `sql.go`. -/
def createDatabase (o : Oracle) (name : String) (s : State) : Option Err × State :=
  wrapErr "cannot create database" (rootExec o (.createDatabase name) s)

/-- `dropUser` of `sql.go`. -/
def dropUser (o : Oracle) (username : String) (s : State) : Option Err × State :=
  wrapErr "cannot drop user" (rootExec o (.dropUser username) s)

/-- `createUser` of `sql.go`. -/
def createUser (o : Oracle) (username password : String) (s : State) : Option Err × State :=
  wrapErr "cannot create user" (rootExec o (.createUser username password) s)

/-- `grantAllPrivileges` of `sql.go`. -/
def grantAllPrivileges (o : Oracle) (database username : String) (s : State) :
    Option Err × State :=
  wrapErr "cannot grand privileges to user" (rootExec o (.grantAllPrivileges database username) s)

/-! ## Bookkeeping statements under the schema constraints -/

/-- SQLSTATE `unique_violation`. -/
def uniqueViolation : Err := .pq "23505"

/-- SQLSTATE `foreign_key_violation`. -/
def foreignKeyViolation : Err := .pq "23503"

/-- `INSERT INTO databases (name, created_at, expired_at)`: refused when the
primary key or `UNIQUE (name)` would be violated; `deleted_at` stays NULL. -/
def Tables.insertDatabase (t : Tables) (id : Int) (name : String) (createdAt expiredAt : Time) :
    Except Err Tables :=
  if ∃ r ∈ t.databases, r.id = id ∨ r.name = name then .error uniqueViolation
  else .ok { t with databases := t.databases ++ [⟨id, name, some expiredAt, createdAt, none⟩] }

/-- `INSERT INTO users (username, database_id, created_at)`: refused when the
primary key, `UNIQUE (username)` or the foreign key would be violated. -/
def Tables.insertUser (t : Tables) (id : Int) (username : String) (databaseId : Int)
    (createdAt : Time) : Except Err Tables :=
  if ∃ r ∈ t.users, r.id = id ∨ r.username = username then .error uniqueViolation
  else if ∀ d ∈ t.databases, d.id ≠ databaseId then .error foreignKeyViolation
  else .ok { t with users := t.users ++ [⟨id, username, databaseId, createdAt, none⟩] }

/-- `UPDATE users SET deleted_at = $1 WHERE id = $2`. -/
def Tables.updateUser (t : Tables) (deletedAt : Time) (id : Int) : Except Err Tables :=
  .ok { t with
    users := t.users.map (fun u => if u.id = id then { u with deletedAt := some deletedAt } else u) }

/-- `DELETE FROM users WHERE id = $1`. -/
def Tables.deleteUser (t : Tables) (id : Int) : Except Err Tables :=
  .ok { t with users := t.users.filter (fun u => decide (u.id ≠ id)) }

/-- `UPDATE databases SET deleted_at = $1 WHERE id = $2`. -/
def Tables.updateDatabase (t : Tables) (deletedAt : Time) (id : Int) : Except Err Tables :=
  .ok { t with
    databases :=
      t.databases.map (fun d => if d.id = id then { d with deletedAt := some deletedAt } else d) }

/-- `DELETE FROM databases WHERE id = $1`: refused while a row of `users`
references a row that would be deleted. -/
def Tables.deleteDatabase (t : Tables) (id : Int) : Except Err Tables :=
  if (∃ d ∈ t.databases, d.id = id) ∧ (∃ u ∈ t.users, u.databaseId = id) then
    .error foreignKeyViolation
  else .ok { t with databases := t.databases.filter (fun d => decide (d.id ≠ id)) }

/-- A statement sent on the open transaction: it fails when the transaction is
closed, when the backend refuses it, or when a constraint is violated;
otherwise the tables of the transaction are replaced. -/
def txExec (o : Oracle) (st : Stmt) (apply : Tables → Except Err Tables) (s : State) :
    Option Err × State :=
  match s.tx with
  | none => (some ErrTxDone, s.log st (some ErrTxDone))
  | some t =>
    match o s.trace st with
    | some e => (some e, s.log st (some e))
    | none =>
      match apply t with
      | .error e => (some e, s.log st (some e))
      | .ok t1 => (none, { s.log st none with tx := some t1 })

/-! ## The Postgres engine (`postgres.go`) -/

/-- The engine; of its fields only `softDelete` influences the operations below. -/
structure Postgres where
  softDelete : Bool
  deriving DecidableEq, Repr

/-- How a call of an engine operation ends. -/
inductive Result (α : Type) where
  | ok (a : α)
  | error (err : Err)
  | panicked (r : PanicValue)
  deriving DecidableEq, Repr

/-- The struct `user` of `postgres.go`. -/
structure user where
  ID : Int
  Username : String
  deriving DecidableEq, Repr

/-- The struct `database` of `postgres.go`. -/
structure database where
  ID : Int
  Name : String
  ExpiredAt : Option Time
  Users : List user
  deriving DecidableEq, Repr

/-- `(*Postgres).insertDatabase`: the row gets the next value of the sequence
and `expired_at = now.Add(ttl)`, whatever `ttl` is. -/
def insertDatabase (o : Oracle) (database : String) (now : Time) (ttl : Duration) (s : State) :
    Except Err Int × State :=
  match txExec o (.insertDatabase database now (now + ttl))
      (fun t => t.insertDatabase s.dbSeq database now (now + ttl))
      { s with dbSeq := s.dbSeq + 1 } with
  | (some err, s1) => (.error (.wrap err "cannot scan database id"), s1)
  | (none, s1) => (.ok s.dbSeq, s1)

/-- `(*Postgres).insertUser`. -/
def insertUser (o : Oracle) (databaseID : Int) (username : String) (now : Time) (s : State) :
    Except Err Int × State :=
  match txExec o (.insertUser username databaseID now)
      (fun t => t.insertUser s.userSeq username databaseID now)
      { s with userSeq := s.userSeq + 1 } with
  | (some err, s1) => (.error (.wrap err "cannot scan user id"), s1)
  | (none, s1) => (.ok s.userSeq, s1)

/-- One row of the result of the `SELECT ... LEFT JOIN` of `list`: the columns
of `users` are NULL for a database without users. -/
structure JoinRow where
  dID : Int
  dName : String
  dExpiredAt : Option Time
  uID : Option Int
  uUsername : Option String
  deriving DecidableEq, Repr

/-- The `WHERE` clause of the query of `list` with `notExired`:
`d.deleted_at IS NULL AND d.expired_at IS NOT NULL AND d.expired_at < $1`. -/
def isExpired (now : Time) (d : DatabaseRecord) : Bool :=
  d.deletedAt.isNone &&
    (match d.expiredAt with
     | some e => decide (e < now)
     | none => false)

/-- The rows `databases AS d LEFT JOIN users AS u ON u.database_id = d.id`
contributes for one database. -/
def joinUsers (users : List UserRecord) (d : DatabaseRecord) : List JoinRow :=
  match users.filter (fun u => decide (u.databaseId = d.id)) with
  | [] => [⟨d.id, d.name, d.expiredAt, none, none⟩]
  | u :: us => (u :: us).map (fun u => ⟨d.id, d.name, d.expiredAt, some u.id, some u.username⟩)

/-- The result set of the query of `list` with `notExired`. -/
def Tables.selectExpired (t : Tables) (now : Time) : List JoinRow :=
  ((t.databases.filter (isExpired now)).map (joinUsers t.users)).flatten

/-- `mappedDBs[dtbs.ID] = d` after `d.Users = append(d.Users, ...)`: the entry
of the key is extended, or created when the key is new. -/
def upsert (mappedDBs : List database) (ID : Int) (Name : String) (ExpiredAt : Option Time)
    (u : user) : List database :=
  if ∃ d ∈ mappedDBs, d.ID = ID then
    mappedDBs.map (fun d => if d.ID = ID then { d with Users := d.Users ++ [u] } else d)
  else mappedDBs ++ [⟨ID, Name, ExpiredAt, [u]⟩]

/-- The loop `for rows.Next()` of `list`. `rows.Scan` stores the two columns
of `users` into an `int` and a `string`, which fails on NULL. -/
def scanRows : List JoinRow → List database → Except Err (List database)
  | [], mappedDBs => .ok mappedDBs
  | r :: rows, mappedDBs =>
    match r.uID, r.uUsername with
    | some uid, some uname => scanRows rows (upsert mappedDBs r.dID r.dName r.dExpiredAt ⟨uid, uname⟩)
    | none, _ =>
      .error (.wrap (.other "sql: Scan error on column index 3: converting NULL to int is unsupported")
        "cannot scan database")
    | some _, none =>
      .error (.wrap (.other "sql: Scan error on column index 4: converting NULL to string is unsupported")
        "cannot scan database")

/-- `(*Postgres).list`, called on `p.managementDB`: it reads the committed
tables. Without `notExired` the query mentions `$1` and passes no argument,
which the backend rejects. -/
def list (o : Oracle) (now : Time) (notExired : Bool) (s : State) :
    Except Err (List database) × State :=
  if notExired then
    match o s.trace (.selectExpired now) with
    | some err =>
      (.error (.wrap err "cannot select expired databases"), s.log (.selectExpired now) (some err))
    | none => (scanRows (s.tables.selectExpired now) [], s.log (.selectExpired now) none)
  else
    match o s.trace .selectNoArgs with
    | some err => (.error (.wrap err "cannot select expired databases"), s.log .selectNoArgs (some err))
    | none =>
      (.error (.wrap (.pq "42P02") "cannot select expired databases"),
        s.log .selectNoArgs (some (.pq "42P02")))

/-- The closure of the first transaction of `Create`; it captures `dbID`. -/
def createPhaseA (o : Oracle) (database : String) (now : Time) (ttl : Duration)
    (dbID : Int) (s : State) : FnResult × Int × State :=
  match insertDatabase o database now ttl s with
  | (.error err, s1) => (.returned (some (.wrap err "cannot insert database")), dbID, s1)
  | (.ok id, s1) =>
    match createDatabase o database s1 with
    | (some err, s2) => (.returned (some (.wrap err "cannot create database")), dbID, s2)
    | (none, s2) => (.returned none, id, s2)

/-- The closure of the second transaction of `Create`; it assigns the outer
variable `err`. -/
def createPhaseB (o : Oracle) (database username password : String) (now : Time) (dbID : Int)
    (_ : Option Err) (s : State) : FnResult × Option Err × State :=
  match insertUser o dbID username now s with
  | (.error e, s1) => (.returned (some (.wrap e "cannot insert user")), some e, s1)
  | (.ok _, s1) =>
    match createUser o username password s1 with
    | (some e, s2) => (.returned (some (.wrap e "cannot create user")), none, s2)
    | (none, s2) =>
      match grantAllPrivileges o database username s2 with
      | (some e, s3) => (.returned (some (.wrap e "cannot grand all privileges to user")), none, s3)
      | (none, s3) => (.returned none, none, s3)

/-- The local `database` of `Create`: the explicit name, or the generated one
when the explicit name is empty. -/
def resolveDatabase (options : CreaterOptions) : String :=
  if options.Database = "" then options.DBNameGenerator () else options.Database

/-- The local `username` of `Create`. -/
def resolveUsername (options : CreaterOptions) : String :=
  if options.Username = "" then options.UsernameGenerator () else options.Username

/-- The local `password` of `Create`: the explicit one when the pointer is
not nil, else the generated one. -/
def resolvePassword (options : CreaterOptions) : String :=
  match options.Password with
  | some password => password
  | none => options.PasswordGenerator ()

/-- The local `expiredAt` of `Create`: nil when the TTL is zero. -/
def resolveExpiredAt (now : Time) (ttl : Duration) : Option Time :=
  if ttl ≠ 0 then some (now + ttl) else none

/-- `(*Postgres).Create`; `now` is the value of `nowFunc()`. -/
def Create (o : Oracle) (u : UUIDs) (now : Time) (opts : List CreaterOption) (s : State) :
    Result DB × State :=
  let options := NewCreaterOptions u opts
  let database := resolveDatabase options
  let username := resolveUsername options
  let password := resolvePassword options
  match Transaction o (createPhaseA o database now options.TTL) 0 s with
  | (.panicked r, _, s1) => (.panicked r, s1)
  | (.returned (some err), _, s1) => (.error (.wrap err "cannot create DB"), s1)
  | (.returned none, dbID, s1) =>
    match Transaction o (createPhaseB o database username password now dbID) none s1 with
    | (.panicked r, _, s2) => (.panicked r, s2)
    | (.returned (some err), _, s2) => (.error (.wrap err "cannot create user"), s2)
    | (.returned none, _, s2) =>
      (.ok ⟨database, username, password, resolveExpiredAt now options.TTL⟩, s2)

/-- A Go loop `for _, x := range xs { if err := body(x); err != nil { return err } }`. -/
def forEach {α : Type} (body : α → State → Option Err × State) :
    List α → State → Option Err × State
  | [], s => (none, s)
  | x :: xs, s =>
    match body x s with
    | (some err, s1) => (some err, s1)
    | (none, s1) => forEach body xs s1

/-- The credentials built from the groups returned by `list`, with an empty
password (the last loop of `DeleteExpired`, and the loop of `List`). -/
def credentials (databases : List database) : List DB :=
  (databases.map (fun db => db.Users.map (fun user =>
    (⟨db.Name, user.Username, "", db.ExpiredAt⟩ : DB)))).flatten

/-- The statement of the loop "Delete users" for one user. -/
def deleteUserRow (o : Oracle) (p : Postgres) (now : Time) (user : user) (s : State) :
    Option Err × State :=
  if p.softDelete then
    wrapErr "cannot delete user from users"
      (txExec o (.updateUser now user.ID) (fun t => t.updateUser now user.ID) s)
  else
    wrapErr "cannot delete user from users"
      (txExec o (.deleteUser user.ID) (fun t => t.deleteUser user.ID) s)

/-- The statement of the loop "Delete databases" for one database. -/
def deleteDatabaseRow (o : Oracle) (p : Postgres) (now : Time) (database : database) (s : State) :
    Option Err × State :=
  if p.softDelete then
    wrapErr "cannot delete user from users"
      (txExec o (.updateDatabase now database.ID) (fun t => t.updateDatabase now database.ID) s)
  else
    wrapErr "cannot delete database from databases"
      (txExec o (.deleteDatabase database.ID) (fun t => t.deleteDatabase database.ID) s)

/-- The four loops of the closure of `DeleteExpired`, in source order. -/
def sweep (o : Oracle) (p : Postgres) (now : Time) (databases : List database) (s : State) :
    Option Err × State :=
  match forEach (fun database => fun s =>
      wrapErr "cannot drop database" (dropDatabase o database.Name s)) databases s with
  | (some err, s1) => (some err, s1)
  | (none, s1) =>
    match forEach (fun database => forEach (fun user => fun s =>
        wrapErr "cannot drop user" (dropUser o user.Username s)) database.Users) databases s1 with
    | (some err, s2) => (some err, s2)
    | (none, s2) =>
      match forEach (fun database => forEach (deleteUserRow o p now) database.Users)
          databases s2 with
      | (some err, s3) => (some err, s3)
      | (none, s3) => forEach (deleteDatabaseRow o p now) databases s3

/-- The closure of the transaction of `DeleteExpired`; it captures `deletedDBs`. -/
def deleteExpiredFn (o : Oracle) (p : Postgres) (now : Time) (deletedDBs : List DB) (s : State) :
    FnResult × List DB × State :=
  match list o now true s with
  | (.error err, s1) =>
    (.returned (some (.wrap err "cannot get list of expired DBs")), deletedDBs, s1)
  | (.ok databases, s1) =>
    match sweep o p now databases s1 with
    | (some err, s2) => (.returned (some err), deletedDBs, s2)
    | (none, s2) => (.returned none, credentials databases, s2)

/-- `(*Postgres).DeleteExpired`; `now` is the value of `nowFunc()`. -/
def DeleteExpired (o : Oracle) (p : Postgres) (now : Time) (s : State) :
    Result (List DB) × State :=
  match Transaction o (deleteExpiredFn o p now) [] s with
  | (.panicked r, _, s1) => (.panicked r, s1)
  | (.returned (some err), _, s1) => (.error (.wrap err "cannot delete expired DBs"), s1)
  | (.returned none, deletedDBs, s1) => (.ok deletedDBs, s1)

/-- The oracle of a backend that executes every statement. -/
def allOk : Oracle := fun _ _ => none

/-- An engine state with the given committed tables, no open transaction, and
an empty trace. -/
def State.init (t : Tables) (dbSeq userSeq : Int) : State :=
  ⟨t, none, dbSeq, userSeq, []⟩

/-- A sequence of `Register` calls on a registry: the registry reached and the
result of each call, in call order. -/
def registerAll : Librarian → List (String × Database) → Librarian × List (Option Err)
  | l, [] => (l, [])
  | l, (name, database) :: calls =>
    ((registerAll (Register l name database).1 calls).1,
      (Register l name database).2 :: (registerAll (Register l name database).1 calls).2)

/-- The events a call appended to the trace: those of `s1` after the ones of `s`. -/
def callTrace (s s1 : State) : List Event :=
  s1.trace.drop s.trace.length

/-- The ways a call of `Create` on state `s` can end, by the statement that
failed: the result, the committed tables and the statements issued. In the
first group nothing is committed; in the second the row of the database is
committed and that of the user is not; in the last both are. -/
def CreateOutcome (db un pw : String) (now : Time) (ttl : Duration) (s : State)
    (r : Result DB × State) : Prop :=
  let insDb : Event := ⟨.insertDatabase db now (now + ttl), none⟩
  let insUser : Event := ⟨.insertUser un s.dbSeq now, none⟩
  let phaseA : List Event := [⟨.beginTx, none⟩, insDb, ⟨.createDatabase db, none⟩, ⟨.commit, none⟩]
  let withDb : Tables :=
    { s.tables with databases := s.tables.databases ++ [⟨s.dbSeq, db, some (now + ttl), now, none⟩] }
  let freshDb : Prop := ∀ row ∈ s.tables.databases, row.id ≠ s.dbSeq ∧ row.name ≠ db
  let freshUser : Prop := ∀ row ∈ s.tables.users, row.id ≠ s.userSeq ∧ row.username ≠ un
  ((∃ err, r.1 = .error err) ∧ r.2.tables = s.tables ∧
    ((∃ e, callTrace s r.2 = [⟨.beginTx, some e⟩]) ∨
     (∃ e, callTrace s r.2 =
        [⟨.beginTx, none⟩, ⟨.insertDatabase db now (now + ttl), some e⟩, ⟨.rollback, none⟩]) ∨
     (freshDb ∧ ∃ e, callTrace s r.2 =
        [⟨.beginTx, none⟩, insDb, ⟨.createDatabase db, some e⟩, ⟨.rollback, none⟩]) ∨
     (freshDb ∧ ∃ e, callTrace s r.2 =
        [⟨.beginTx, none⟩, insDb, ⟨.createDatabase db, none⟩, ⟨.commit, some e⟩]))) ∨
  (freshDb ∧ (∃ err, r.1 = .error err) ∧ r.2.tables = withDb ∧
    ((∃ e, callTrace s r.2 = phaseA ++ [⟨.beginTx, some e⟩]) ∨
     (∃ e, callTrace s r.2 = phaseA ++
        [⟨.beginTx, none⟩, ⟨.insertUser un s.dbSeq now, some e⟩, ⟨.rollback, none⟩]) ∨
     (freshUser ∧ ∃ e, callTrace s r.2 = phaseA ++
        [⟨.beginTx, none⟩, insUser, ⟨.createUser un pw, some e⟩, ⟨.rollback, none⟩]) ∨
     (freshUser ∧ ∃ e, callTrace s r.2 = phaseA ++
        [⟨.beginTx, none⟩, insUser, ⟨.createUser un pw, none⟩,
          ⟨.grantAllPrivileges db un, some e⟩, ⟨.rollback, none⟩]) ∨
     (freshUser ∧ ∃ e, callTrace s r.2 = phaseA ++
        [⟨.beginTx, none⟩, insUser, ⟨.createUser un pw, none⟩,
          ⟨.grantAllPrivileges db un, none⟩, ⟨.commit, some e⟩]))) ∨
  (freshDb ∧ freshUser ∧ r.1 = .ok ⟨db, un, pw, resolveExpiredAt now ttl⟩ ∧
    r.2.tables = { withDb with users := s.tables.users ++ [⟨s.userSeq, un, s.dbSeq, now, none⟩] } ∧
    callTrace s r.2 = phaseA ++
      [⟨.beginTx, none⟩, insUser, ⟨.createUser un pw, none⟩,
        ⟨.grantAllPrivileges db un, none⟩, ⟨.commit, none⟩])

/-- The oracle of a backend that refuses exactly the statement `st`, with
error `e`, and executes every other statement. -/
def failOn (st : Stmt) (e : Err) : Oracle :=
  fun _ st1 => if st1 = st then some e else none

/-- Some values of `uuid.New().String()`. -/
def someUUIDs : UUIDs := ⟨"d", "u", "p"⟩

/-- The empty bookkeeping store, with both sequences at 1. -/
def emptyState : State := State.init ⟨[], []⟩ 1 1

/-- A store holding one database "main" (id 1, never expiring by a NULL
`expired_at`) with one user "bob" (id 1). -/
def storeWithBob : State :=
  State.init ⟨[⟨1, "main", none, 50, none⟩], [⟨1, "bob", 1, 50, none⟩]⟩ 2 2

/-! ## Vocabulary for the traces of `DeleteExpired` -/

/-- The administrative `DROP DATABASE` and `DROP USER` statements. -/
def Stmt.isDrop : Stmt → Bool
  | .dropDatabase _ => true
  | .dropUser _ => true
  | _ => false

/-- The statements that update or delete a bookkeeping row. -/
def Stmt.isMutation : Stmt → Bool
  | .updateUser _ _ => true
  | .deleteUser _ => true
  | .updateDatabase _ _ => true
  | .deleteDatabase _ => true
  | _ => false

/-- The place of a statement in the source order of `DeleteExpired`: begin,
select, the two loops of drops, the two loops of row changes, commit or
rollback. The statements `DeleteExpired` never issues come last. -/
def Stmt.rank : Stmt → Nat
  | .beginTx => 0
  | .selectExpired _ => 1
  | .selectNoArgs => 1
  | .dropDatabase _ => 2
  | .dropUser _ => 3
  | .updateUser _ _ => 4
  | .deleteUser _ => 4
  | .updateDatabase _ _ => 5
  | .deleteDatabase _ => 5
  | .commit => 6
  | .rollback => 6
  | _ => 7

/-- The order of two statements of one call: the earlier one does not come
later in source order, and it succeeded unless the later one is the rollback. -/
def Event.before (a b : Event) : Prop :=
  a.stmt.rank ≤ b.stmt.rank ∧ (a.err = none ∨ b.stmt = .rollback)

/-- A piece of code that leaves the committed tables alone and issues only
statements of ranks `lo..hi`, in source order, stopping at the first failure;
when it returns nil every statement succeeded. -/
def Step (lo hi : Nat) (f : State → Option Err × State) : Prop :=
  ∀ s, (f s).2.tables = s.tables ∧ ∃ evs, (f s).2.trace = s.trace ++ evs ∧
    (∀ ev ∈ evs, lo ≤ ev.stmt.rank ∧ ev.stmt.rank ≤ hi) ∧
    evs.Pairwise (fun a b => a.stmt.rank ≤ b.stmt.rank ∧ a.err = none) ∧
    ((f s).1 = none → ∀ ev ∈ evs, ev.err = none)

/-- Two pieces of code in sequence, the second skipped when the first fails. -/
def andThen (f g : State → Option Err × State) (s : State) : Option Err × State :=
  match f s with
  | (some err, s1) => (some err, s1)
  | (none, s1) => g s1

/-- The rows of `users` after the loop "Delete users" ran for the users `ids`. -/
def reclaimUsers (softDelete : Bool) (now : Time) (ids : List Int) (rows : List UserRecord) :
    List UserRecord :=
  if softDelete then rows.map (fun u => if u.id ∈ ids then { u with deletedAt := some now } else u)
  else rows.filter (fun u => decide (u.id ∉ ids))

/-- The rows of `databases` after the loop "Delete databases" ran for the
databases `ids`. -/
def reclaimDatabases (softDelete : Bool) (now : Time) (ids : List Int)
    (rows : List DatabaseRecord) : List DatabaseRecord :=
  if softDelete then rows.map (fun d => if d.id ∈ ids then { d with deletedAt := some now } else d)
  else rows.filter (fun d => decide (d.id ∉ ids))

/-- The ids of all users of the groups returned by `list`. -/
def userIDs (databases : List database) : List Int :=
  (databases.map (fun d => d.Users.map (fun u => u.ID))).flatten

/-- A piece of code that, when it returns nil on an open transaction with
tables `t`, leaves the transaction open with tables `g t`. -/
def TxEffect (g : Tables → Tables) (f : State → Option Err × State) : Prop :=
  ∀ s t, s.tx = some t → (f s).1 = none → (f s).2.tx = some (g t)

/-- The tables after a successful sweep over the groups `databases`. -/
def reclaim (softDelete : Bool) (now : Time) (databases : List database) (t : Tables) : Tables :=
  ⟨reclaimDatabases softDelete now (databases.map (fun d => d.ID)) t.databases,
    reclaimUsers softDelete now (userIDs databases) t.users⟩

/-- The statements of a sweep: drops and row changes only, in source order,
none after a failed one. -/
def SweepEvents (evs : List Event) : Prop :=
  (∀ ev ∈ evs, 2 ≤ ev.stmt.rank ∧ ev.stmt.rank ≤ 5) ∧
  evs.Pairwise (fun a b => a.stmt.rank ≤ b.stmt.rank ∧ a.err = none)

/-- The ways a call of `DeleteExpired` on state `s` can end: the result, the
committed tables and the statements issued. In all but the last the call fails
and the committed tables are those of `s`. -/
def DeleteExpiredOutcome (p : Postgres) (now : Time) (s : State)
    (r : Result (List DB) × State) : Prop :=
  ((∃ err, r.1 = .error err) ∧ r.2.tables = s.tables ∧
    ((∃ e, callTrace s r.2 = [⟨.beginTx, some e⟩]) ∨
     (∃ e, callTrace s r.2 =
        [⟨.beginTx, none⟩, ⟨.selectExpired now, some e⟩, ⟨.rollback, none⟩]) ∨
     ((∃ e, scanRows (s.tables.selectExpired now) [] = .error e) ∧
        callTrace s r.2 = [⟨.beginTx, none⟩, ⟨.selectExpired now, none⟩, ⟨.rollback, none⟩]) ∨
     (∃ groups evs, scanRows (s.tables.selectExpired now) [] = .ok groups ∧ SweepEvents evs ∧
        callTrace s r.2 =
          [⟨.beginTx, none⟩, ⟨.selectExpired now, none⟩] ++ evs ++ [⟨.rollback, none⟩]) ∨
     (∃ groups evs e, scanRows (s.tables.selectExpired now) [] = .ok groups ∧ SweepEvents evs ∧
        (∀ ev ∈ evs, ev.err = none) ∧
        callTrace s r.2 =
          [⟨.beginTx, none⟩, ⟨.selectExpired now, none⟩] ++ evs ++ [⟨.commit, some e⟩]))) ∨
  (∃ groups evs, scanRows (s.tables.selectExpired now) [] = .ok groups ∧ SweepEvents evs ∧
    (∀ ev ∈ evs, ev.err = none) ∧
    r.1 = .ok (credentials groups) ∧
    r.2.tables = reclaim p.softDelete now groups s.tables ∧
    callTrace s r.2 =
      [⟨.beginTx, none⟩, ⟨.selectExpired now, none⟩] ++ evs ++ [⟨.commit, none⟩])

/-- The store a `Create` leaves when `CREATE USER` fails: the database "acme"
(expiring at 130) is recorded, without any user. -/
def afterFailedUser : State :=
  (Create (failOn (.createUser "bob" "p") (.pq "42710")) someUUIDs 100
    [WithDatabase "acme", WithUsername "bob", WithTTL 30] emptyState).2

/-- A store with the expired database "acme" and its user "bob", and the
database "main" that never expires. -/
def storeExpired : State :=
  State.init ⟨[⟨1, "acme", some 130, 100, none⟩, ⟨2, "main", none, 100, none⟩],
    [⟨1, "bob", 1, 100, none⟩, ⟨2, "carol", 2, 100, none⟩]⟩ 3 3

/-! ## Connections and lifecycle (`connection.go`, `postgres.go`) -/

/-- A `*sql.DB` handle, identified by the database it is connected to (the
empty name for the root connection). -/
structure SqlDB where
  database : String
  deriving DecidableEq, Repr

/-- The connection fields of `Postgres`: the name of the management database
and the two handles `rootDB` and `managementDB` (`none` is nil). -/
structure Connections where
  managementDatabase : String
  rootDB : Option SqlDB
  managementDB : Option SqlDB
  deriving DecidableEq, Repr

/-- `errors.Cause`: the innermost error of a chain of `errors.Wrap`. -/
def Cause : Err → Err
  | .wrap cause _ => Cause cause
  | .pq code => .pq code
  | .other msg => .other msg

/-- The test `e, ok := errors.Cause(err).(*pq.Error); ok && e.Code == code`. -/
def isPqCode (code : String) (err : Err) : Bool :=
  match Cause err with
  | .pq c => c == code
  | _ => false

/-- An operation on a connection: the backend alone decides, and the
operation is recorded. -/
def connExec (o : Oracle) (st : Stmt) (s : State) : Option Err × State :=
  (o s.trace st, s.log st (o s.trace st))

/-- `connect` of `connection.go`: open, ping, and close again when the ping
fails. When that close fails too, the error of the ping is still the one
wrapped. -/
def connect (o : Oracle) (database : String) (s : State) : Except Err SqlDB × State :=
  match connExec o (.open database) s with
  | (some err, s1) => (.error (.wrap err "cannot open connection"), s1)
  | (none, s1) =>
    match connExec o (.ping database) s1 with
    | (some err, s2) =>
      match connExec o (.close database) s2 with
      | (some _, s3) => (.error (.wrap err "cannot close connection"), s3)
      | (none, s3) => (.error (.wrap err "cannot ping database"), s3)
    | (none, s2) => (.ok ⟨database⟩, s2)

/-- `(*Postgres).Connect`. -/
def Connect (o : Oracle) (p : Connections) (s : State) : Option Err × Connections × State :=
  match connect o "" s with
  | (.error err, s1) => (some (.wrap err "cannot connect to root database"), p, s1)
  | (.ok db, s1) => (none, { p with rootDB := some db }, s1)

/-- The second `if` of `Disconnect`: the management connection. -/
def disconnectManagement (o : Oracle) (p : Connections) (s : State) : Option Err × State :=
  match p.managementDB with
  | some managementDB =>
    match connExec o (.close managementDB.database) s with
    | (some err, s1) => (some (.wrap err "cannot close connection with management DB"), s1)
    | (none, s1) => (none, s1)
  | none => (none, s)

/-- `(*Postgres).Disconnect`: a failed close of the root connection returns at
once. -/
def Disconnect (o : Oracle) (p : Connections) (s : State) : Option Err × State :=
  match p.rootDB with
  | some rootDB =>
    match connExec o (.close rootDB.database) s with
    | (some err, s1) => (some (.wrap err "cannot close connection with root DB"), s1)
    | (none, s1) => disconnectManagement o p s1
  | none => disconnectManagement o p s

/-- `(*Postgres).createManagementDB`. -/
def createManagementDB (o : Oracle) (p : Connections) (s : State) : Option Err × State :=
  wrapErr "cannot create management database" (createDatabase o p.managementDatabase s)

/-- `(*Postgres).connectManagementDB`. -/
def connectManagementDB (o : Oracle) (p : Connections) (s : State) :
    Option Err × Connections × State :=
  match connect o p.managementDatabase s with
  | (.error err, s1) => (some (.wrap err "cannot connect to management database"), p, s1)
  | (.ok db, s1) => (none, { p with managementDB := some db }, s1)

/-- The closure of the transaction of `createManagementTables`: the two
`CREATE TABLE` statements. They add no row. -/
def createTablesFn (o : Oracle) (_ : Unit) (s : State) : FnResult × Unit × State :=
  match txExec o .createTableDatabases (fun t => .ok t) s with
  | (some err, s1) => (.returned (some (.wrap err "cannot create \"databases\" table")), (), s1)
  | (none, s1) =>
    match txExec o .createTableUsers (fun t => .ok t) s1 with
    | (some err, s2) => (.returned (some (.wrap err "cannot create \"users\" table")), (), s2)
    | (none, s2) => (.returned none, (), s2)

/-- `(*Postgres).createManagementTables`. -/
def createManagementTables (o : Oracle) (s : State) : FnResult × State :=
  match Transaction o (createTablesFn o) () s with
  | (r, _, s1) => (r, s1)

/-- Whether `Init` goes on after a step that returned `err`: the step
succeeded, or its cause is a `*pq.Error` with the given code. -/
def tolerated (code : String) (err : Option Err) : Bool :=
  match err with
  | none => true
  | some e => isPqCode code e

/-- `(*Postgres).Init`. -/
def Init (o : Oracle) (p : Connections) (s : State) : FnResult × Connections × State :=
  match createManagementDB o p s with
  | (err1, s1) =>
    if tolerated "42P04" err1 then
      match connectManagementDB o p s1 with
      | (some err, p2, s2) =>
        (.returned (some (.wrap err "cannot connect to management DB")), p2, s2)
      | (none, p2, s2) =>
        match createManagementTables o s2 with
        | (.panicked r, s3) => (.panicked r, p2, s3)
        | (.returned err3, s3) =>
          if tolerated "42P07" err3 then (.returned none, p2, s3)
          else (.returned (err3.map (fun e => e.wrap "cannot create management tables")), p2, s3)
    else (.returned (err1.map (fun e => e.wrap "cannot create management database")), p, s1)

/-- `(*Postgres).List`; `now` is the value of `nowFunc()`. -/
def Postgres.List (o : Oracle) (now : Time) (s : State) : Result (List DB) × State :=
  match list o now true s with
  | (.error err, s1) => (.error (.wrap err "cannot get list of DBs"), s1)
  | (.ok databases, s1) => (.ok (credentials databases), s1)

/-- An engine with both connections open. -/
def bothOpen : Connections := ⟨"librarian", some ⟨""⟩, some ⟨"librarian"⟩⟩

/-- A refusal by the backend for the duplicate condition of the object the
statement creates: `42P04` (duplicate database) for `CREATE DATABASE`, `42P07`
(duplicate table) for the two `CREATE TABLE`. -/
def isDuplicate (st : Stmt) (e : Err) : Prop :=
  (∃ name, st = .createDatabase name ∧ Cause e = .pq "42P04") ∨
  ((st = .createTableDatabases ∨ st = .createTableUsers) ∧ Cause e = .pq "42P07")

/-- A backend on which what was created stays: a database created before is a
duplicate, and so is a table created before in a transaction that committed;
nothing else fails. -/
def existsAfter : Oracle := fun tr st =>
  match st with
  | .createDatabase name =>
    if (⟨.createDatabase name, none⟩ : Event) ∈ tr then some (.pq "42P04") else none
  | .createTableDatabases =>
    if (⟨.createTableDatabases, none⟩ : Event) ∈ tr ∧ (⟨.commit, none⟩ : Event) ∈ tr then
      some (.pq "42P07")
    else none
  | .createTableUsers =>
    if (⟨.createTableUsers, none⟩ : Event) ∈ tr ∧ (⟨.commit, none⟩ : Event) ∈ tr then
      some (.pq "42P07")
    else none
  | _ => none

/-- An engine connected to the root only, as `Connect` leaves it. -/
def rootOnly : Connections := ⟨"librarian", some ⟨""⟩, none⟩

/-- From the history `tr` on, the backend refuses a statement only for the
duplicate condition of the object the statement creates. -/
def OnlyDuplicates (o : Oracle) (tr : List Event) : Prop :=
  ∀ evs st e, o (tr ++ evs) st = some e → isDuplicate st e

/-- The credential `List` builds from one row of the join. -/
def rowCredential (r : JoinRow) : DB :=
  ⟨r.dName, r.uUsername.getD "", "", r.dExpiredAt⟩

/-- The pairings of a database that is not deleted and has an expiry before
`now` with each of the users whose `database_id` is its id, as credentials with
an empty password. -/
def expiredPairings (t : Tables) (now : Time) : List DB :=
  ((t.databases.filter (isExpired now)).map (fun d =>
    (t.users.filter (fun u => decide (u.databaseId = d.id))).map (fun u =>
      (⟨d.name, u.username, "", d.expiredAt⟩ : DB)))).flatten

/-! # Properties -/

/-! ## Registry -/

theorem lookup_append (l : Librarian) (name n : String) (d : Engine) :
    Librarian.lookup ⟨l.databases ++ [(name, d)]⟩ n =
      match l.lookup n with
      | some e => some e
      | none => if name = n then some d else none := by
  unfold Librarian.lookup
  rw [List.find?_append]
  cases h : List.find? (fun kv => kv.1 == n) l.databases with
  | some kv => simp
  | none =>
    by_cases hn : name = n
    · simp [hn]
    · simp [hn]

theorem Get_eq_lookup (l : Librarian) (n : String) : Get l n = l.lookup n := by
  unfold Get
  cases l.lookup n <;> rfl

theorem lookup_isSome_iff (l : Librarian) (n : String) :
    l.lookup n ≠ none ↔ n ∈ l.databases.map Prod.fst := by
  unfold Librarian.lookup
  constructor
  · intro h
    cases hf : List.find? (fun kv => kv.1 == n) l.databases with
    | none => simp [hf] at h
    | some kv =>
      have h1 := List.find?_some hf
      have h2 := List.mem_of_find?_eq_some hf
      simp only [beq_iff_eq] at h1
      exact List.mem_map.mpr ⟨kv, h2, h1⟩
  · intro h
    obtain ⟨kv, hkv, hn⟩ := List.mem_map.mp h
    cases hf : List.find? (fun kv => kv.1 == n) l.databases with
    | none =>
      have := List.find?_eq_none.mp hf kv hkv
      simp [hn] at this
    | some kv => simp

theorem Register_keys (l : Librarian) (name : String) (database : Database) :
    (Register l name database).1.databases.map Prod.fst =
      if (Register l name database).2 = none then l.databases.map Prod.fst ++ [name]
      else l.databases.map Prod.fst := by
  unfold Register
  cases database with
  | none => simp
  | some d =>
    cases h : l.lookup name with
    | none => simp
    | some e => simp

theorem Register_ok_fresh (l : Librarian) (name : String) (database : Database)
    (h : (Register l name database).2 = none) : name ∉ l.databases.map Prod.fst := by
  intro hmem
  have hl := (lookup_isSome_iff l name).mpr hmem
  unfold Register at h
  cases database with
  | none => simp at h
  | some d =>
    cases hk : l.lookup name with
    | none => exact hl hk
    | some e => simp [hk] at h

/-- C9: `Register(name, engine)` fails exactly when the engine is nil or the name
is already registered, and then `Get` is unchanged for every name; otherwise it
succeeds, `Get(name)` is the engine and `Get` of every other name is unchanged.
`Get` on the empty registry is nil, and after registering "pg" twice `Get("pg")`
is still the first engine. -/
theorem Register_Get_spec (l : Librarian) (name : String) (database : Database) :
    ((Register l name database).2 ≠ none ↔ (database = none ∨ Get l name ≠ none)) ∧
    ((Register l name database).2 ≠ none →
      ∀ n, Get (Register l name database).1 n = Get l n) ∧
    ((Register l name database).2 = none →
      Get (Register l name database).1 name = database ∧
      ∀ n, n ≠ name → Get (Register l name database).1 n = Get l n) ∧
    (∀ n, Get New n = none) ∧
    (∀ e1 e2 : Engine,
      (Register (Register New "pg" (some e1)).1 "pg" (some e2)).2 ≠ none ∧
      Get (Register (Register New "pg" (some e1)).1 "pg" (some e2)).1 "pg" = some e1) := by
  refine ⟨?_, ?_, ?_, ?_, ?_⟩
  · simp only [Get_eq_lookup]
    unfold Register
    cases database with
    | none => simp
    | some d => cases h : l.lookup name <;> simp
  · intro h n
    unfold Register at h ⊢
    cases database with
    | none => rfl
    | some d =>
      cases hk : l.lookup name with
      | none => simp [hk] at h
      | some e => simp
  · intro h
    unfold Register at h ⊢
    cases database with
    | none => simp at h
    | some d =>
      cases hk : l.lookup name with
      | some e => simp [hk] at h
      | none =>
        simp only [Get_eq_lookup, lookup_append, hk]
        refine ⟨by simp, ?_⟩
        intro n hn
        cases l.lookup n with
        | some e => rfl
        | none => simp [Ne.symm hn]
  · intro n
    rfl
  · intro e1 e2
    simp [Register, New, Librarian.lookup, Get]

theorem registerAll_keys (calls : List (String × Database)) :
    ∀ l : Librarian, (l.databases.map Prod.fst).Nodup →
      ((registerAll l calls).1.databases.map Prod.fst).Nodup ∧
      ∀ n, n ∈ (registerAll l calls).1.databases.map Prod.fst ↔
        (n ∈ l.databases.map Prod.fst ∨
          ∃ c ∈ calls.zip (registerAll l calls).2, c.1.1 = n ∧ c.2 = none) := by
  induction calls with
  | nil =>
    intro l hl
    simp [registerAll, hl]
  | cons call calls ih =>
    intro l hl
    obtain ⟨name, database⟩ := call
    have hkeys := Register_keys l name database
    have hnd : ((Register l name database).1.databases.map Prod.fst).Nodup := by
      rw [hkeys]
      by_cases hr : (Register l name database).2 = none
      · rw [if_pos hr]
        have hfresh := Register_ok_fresh l name database hr
        exact List.Nodup.append hl (List.nodup_singleton name) (by simpa using hfresh)
      · rw [if_neg hr]
        exact hl
    obtain ⟨ih1, ih2⟩ := ih (Register l name database).1 hnd
    refine ⟨by simpa [registerAll] using ih1, ?_⟩
    intro n
    simp only [registerAll, List.zip_cons_cons, List.mem_cons]
    rw [ih2 n, hkeys]
    by_cases hr : (Register l name database).2 = none
    · rw [if_pos hr]
      constructor
      · rintro (h | ⟨c, hc, h⟩)
        · rcases List.mem_append.mp h with h | h
          · exact Or.inl h
          · refine Or.inr ⟨((name, database), (Register l name database).2), Or.inl rfl, ?_, hr⟩
            simpa using (List.mem_singleton.mp h).symm
        · exact Or.inr ⟨c, Or.inr hc, h⟩
      · rintro (h | ⟨c, hc | hc, h⟩)
        · exact Or.inl (List.mem_append.mpr (Or.inl h))
        · subst hc
          exact Or.inl (List.mem_append.mpr (Or.inr (by simpa using h.1.symm)))
        · exact Or.inr ⟨c, hc, h⟩
    · rw [if_neg hr]
      constructor
      · rintro (h | ⟨c, hc, h⟩)
        · exact Or.inl h
        · exact Or.inr ⟨c, Or.inr hc, h⟩
      · rintro (h | ⟨c, hc | hc, h⟩)
        · exact Or.inl h
        · subst hc
          exact absurd h.2 hr
        · exact Or.inr ⟨c, hc, h⟩

theorem registerAll_length (calls : List (String × Database)) :
    ∀ l : Librarian, (registerAll l calls).2.length = calls.length := by
  induction calls with
  | nil => intro l; rfl
  | cons call calls ih =>
    intro l
    obtain ⟨name, database⟩ := call
    simp [registerAll, ih]

/-- C10: on a registry reached from the empty one by any sequence of `Register`
calls, `Databases` leaves the registry as it is and returns a list in strictly
ascending lexicographic order (so without duplicates) whose members are exactly
the names of the calls that returned no error. -/
theorem Databases_sorted_exact (calls : List (String × Database)) :
    (Databases (registerAll New calls).1).1 = (registerAll New calls).1 ∧
    List.Sorted (· < ·) (Databases (registerAll New calls).1).2 ∧
    (Databases (registerAll New calls).1).2.Nodup ∧
    (∀ n, n ∈ (Databases (registerAll New calls).1).2 ↔
      ∃ c ∈ calls.zip (registerAll New calls).2, c.1.1 = n ∧ c.2 = none) ∧
    (registerAll New calls).2.length = calls.length := by
  obtain ⟨hnd, hmem⟩ := registerAll_keys calls New (by simp [New])
  have hperm := List.perm_insertionSort (· ≤ ·)
    ((registerAll New calls).1.databases.map Prod.fst)
  have hnd2 : (Databases (registerAll New calls).1).2.Nodup := hperm.nodup_iff.mpr hnd
  have hsorted : List.Sorted (· ≤ ·) (Databases (registerAll New calls).1).2 :=
    List.sorted_insertionSort (· ≤ ·) _
  refine ⟨rfl, hsorted.lt_of_le hnd2, hnd2, ?_, ?_⟩
  · intro n
    show n ∈ List.insertionSort _ _ ↔ _
    rw [hperm.mem_iff, hmem n]
    simp [New]
  · exact registerAll_length calls New


theorem wrapErr_eq (msg : String) (r : Option Err) (s : State) :
    wrapErr msg (r, s) = (r.map (fun e => e.wrap msg), s) := by
  cases r <;> rfl

/-- The bookkeeping row `insertDatabase` adds. -/
theorem Tables.insertDatabase_ok (t t1 : Tables) (id : Int) (name : String) (c x : Time)
    (h : t.insertDatabase id name c x = .ok t1) :
    t1 = { t with databases := t.databases ++ [⟨id, name, some x, c, none⟩] } ∧
    ∀ r ∈ t.databases, r.id ≠ id ∧ r.name ≠ name := by
  unfold Tables.insertDatabase at h
  split at h
  · simp at h
  · rename_i hc
    simp only [Except.ok.injEq] at h
    refine ⟨h.symm, ?_⟩
    intro r hr
    constructor
    · intro hid; exact hc ⟨r, hr, Or.inl hid⟩
    · intro hn; exact hc ⟨r, hr, Or.inr hn⟩

theorem phaseA_cases (o : Oracle) (db : String) (now : Time) (ttl : Duration) (s : State) :
    (∃ e err st, Transaction o (createPhaseA o db now ttl) 0 s = (.returned (some err), 0, st) ∧
      st.tables = s.tables ∧ st.trace = s.trace ++ [⟨.beginTx, some e⟩]) ∨
    (∃ e err st, Transaction o (createPhaseA o db now ttl) 0 s = (.returned (some err), 0, st) ∧
      st.tables = s.tables ∧ st.trace = s.trace ++ [⟨.beginTx, none⟩,
        ⟨.insertDatabase db now (now + ttl), some e⟩, ⟨.rollback, none⟩]) ∨
    ((∀ r ∈ s.tables.databases, r.id ≠ s.dbSeq ∧ r.name ≠ db) ∧
      ((∃ e err st, Transaction o (createPhaseA o db now ttl) 0 s = (.returned (some err), 0, st) ∧
        st.tables = s.tables ∧ st.trace = s.trace ++ [⟨.beginTx, none⟩,
          ⟨.insertDatabase db now (now + ttl), none⟩, ⟨.createDatabase db, some e⟩,
          ⟨.rollback, none⟩]) ∨
       (∃ e st, Transaction o (createPhaseA o db now ttl) 0 s =
          (.returned (some e), s.dbSeq, st) ∧
        st.tables = s.tables ∧ st.trace = s.trace ++ [⟨.beginTx, none⟩,
          ⟨.insertDatabase db now (now + ttl), none⟩, ⟨.createDatabase db, none⟩,
          ⟨.commit, some e⟩]) ∨
       (∃ st, Transaction o (createPhaseA o db now ttl) 0 s = (.returned none, s.dbSeq, st) ∧
        st.tables = { s.tables with databases :=
          s.tables.databases ++ [⟨s.dbSeq, db, some (now + ttl), now, none⟩] } ∧
        st.userSeq = s.userSeq ∧
        st.trace = s.trace ++ [⟨.beginTx, none⟩,
          ⟨.insertDatabase db now (now + ttl), none⟩, ⟨.createDatabase db, none⟩,
          ⟨.commit, none⟩]))) := by
  unfold Transaction BeginTx
  cases hb : o s.trace .beginTx with
  | some e => exact Or.inl ⟨e, _, _, rfl, rfl, rfl⟩
  | none =>
    right
    simp only [createPhaseA, insertDatabase, txExec, State.log]
    cases hi : o (s.trace ++ [⟨.beginTx, none⟩]) (.insertDatabase db now (now + ttl)) with
    | some e => exact Or.inl ⟨e, _, _, rfl, rfl, by simp [Rollback, State.log]⟩
    | none =>
      simp only []
      cases hins : s.tables.insertDatabase s.dbSeq db now (now + ttl) with
      | error e => exact Or.inl ⟨e, _, _, rfl, rfl, by simp [Rollback, State.log]⟩
      | ok t1 =>
        obtain ⟨ht1, hfresh⟩ := Tables.insertDatabase_ok _ _ _ _ _ _ hins
        refine Or.inr ⟨hfresh, ?_⟩
        simp only [createDatabase, rootExec, wrapErr_eq, State.log]
        cases hc : o (s.trace ++ [⟨.beginTx, none⟩] ++
            [⟨.insertDatabase db now (now + ttl), none⟩]) (.createDatabase db) with
        | some e => exact Or.inl ⟨e, _, _, rfl, rfl, by simp [Rollback, State.log]⟩
        | none =>
          right
          simp only [Option.map, Commit, State.log]
          cases hcm : o (s.trace ++ [⟨.beginTx, none⟩] ++
              [⟨.insertDatabase db now (now + ttl), none⟩] ++ [⟨.createDatabase db, none⟩])
              .commit with
          | some e => exact Or.inl ⟨e, _, rfl, rfl, by simp⟩
          | none => exact Or.inr ⟨_, rfl, by simp [ht1], rfl, by simp⟩

/-- The bookkeeping row `insertUser` adds. -/
theorem Tables.insertUser_ok (t t1 : Tables) (id : Int) (username : String) (dbID : Int)
    (c : Time) (h : t.insertUser id username dbID c = .ok t1) :
    t1 = { t with users := t.users ++ [⟨id, username, dbID, c, none⟩] } ∧
    (∀ r ∈ t.users, r.id ≠ id ∧ r.username ≠ username) ∧
    ∃ d ∈ t.databases, d.id = dbID := by
  unfold Tables.insertUser at h
  split at h
  · simp at h
  · rename_i hc
    split at h
    · simp at h
    · rename_i hfk
      simp only [Except.ok.injEq] at h
      refine ⟨h.symm, ?_, ?_⟩
      · intro r hr
        constructor
        · intro hid; exact hc ⟨r, hr, Or.inl hid⟩
        · intro hn; exact hc ⟨r, hr, Or.inr hn⟩
      · by_contra hne
        apply hfk
        intro d hd hid
        exact hne ⟨d, hd, hid⟩

theorem phaseB_cases (o : Oracle) (db un pw : String) (now : Time) (dbID : Int) (s : State) :
    (∃ e err l st, Transaction o (createPhaseB o db un pw now dbID) none s =
        (.returned (some err), l, st) ∧
      st.tables = s.tables ∧ st.trace = s.trace ++ [⟨.beginTx, some e⟩]) ∨
    (∃ e err l st, Transaction o (createPhaseB o db un pw now dbID) none s =
        (.returned (some err), l, st) ∧
      st.tables = s.tables ∧ st.trace = s.trace ++ [⟨.beginTx, none⟩,
        ⟨.insertUser un dbID now, some e⟩, ⟨.rollback, none⟩]) ∨
    ((∀ r ∈ s.tables.users, r.id ≠ s.userSeq ∧ r.username ≠ un) ∧
      ((∃ e err l st, Transaction o (createPhaseB o db un pw now dbID) none s =
          (.returned (some err), l, st) ∧
        st.tables = s.tables ∧ st.trace = s.trace ++ [⟨.beginTx, none⟩,
          ⟨.insertUser un dbID now, none⟩, ⟨.createUser un pw, some e⟩, ⟨.rollback, none⟩]) ∨
       (∃ e err l st, Transaction o (createPhaseB o db un pw now dbID) none s =
          (.returned (some err), l, st) ∧
        st.tables = s.tables ∧ st.trace = s.trace ++ [⟨.beginTx, none⟩,
          ⟨.insertUser un dbID now, none⟩, ⟨.createUser un pw, none⟩,
          ⟨.grantAllPrivileges db un, some e⟩, ⟨.rollback, none⟩]) ∨
       (∃ e l st, Transaction o (createPhaseB o db un pw now dbID) none s =
          (.returned (some e), l, st) ∧
        st.tables = s.tables ∧ st.trace = s.trace ++ [⟨.beginTx, none⟩,
          ⟨.insertUser un dbID now, none⟩, ⟨.createUser un pw, none⟩,
          ⟨.grantAllPrivileges db un, none⟩, ⟨.commit, some e⟩]) ∨
       (∃ l st, Transaction o (createPhaseB o db un pw now dbID) none s =
          (.returned none, l, st) ∧
        st.tables = { s.tables with users :=
          s.tables.users ++ [⟨s.userSeq, un, dbID, now, none⟩] } ∧
        st.trace = s.trace ++ [⟨.beginTx, none⟩,
          ⟨.insertUser un dbID now, none⟩, ⟨.createUser un pw, none⟩,
          ⟨.grantAllPrivileges db un, none⟩, ⟨.commit, none⟩]))) := by
  unfold Transaction BeginTx
  cases hb : o s.trace .beginTx with
  | some e => exact Or.inl ⟨e, _, _, _, rfl, rfl, rfl⟩
  | none =>
    right
    simp only [createPhaseB, insertUser, txExec, State.log]
    cases hi : o (s.trace ++ [⟨.beginTx, none⟩]) (.insertUser un dbID now) with
    | some e => exact Or.inl ⟨e, _, _, _, rfl, rfl, by simp [Rollback, State.log]⟩
    | none =>
      simp only []
      cases hins : s.tables.insertUser s.userSeq un dbID now with
      | error e => exact Or.inl ⟨e, _, _, _, rfl, rfl, by simp [Rollback, State.log]⟩
      | ok t1 =>
        obtain ⟨ht1, hfresh, -⟩ := Tables.insertUser_ok _ _ _ _ _ _ hins
        refine Or.inr ⟨hfresh, ?_⟩
        simp only [createUser, rootExec, wrapErr_eq, State.log]
        cases hc : o (s.trace ++ [⟨.beginTx, none⟩] ++
            [⟨.insertUser un dbID now, none⟩]) (.createUser un pw) with
        | some e => exact Or.inl ⟨e, _, _, _, rfl, rfl, by simp [Rollback, State.log]⟩
        | none =>
          right
          simp only [Option.map, grantAllPrivileges, rootExec, wrapErr_eq, State.log]
          cases hg : o (s.trace ++ [⟨.beginTx, none⟩] ++
              [⟨.insertUser un dbID now, none⟩] ++ [⟨.createUser un pw, none⟩])
              (.grantAllPrivileges db un) with
          | some e => exact Or.inl ⟨e, _, _, _, rfl, rfl, by simp [Rollback, State.log]⟩
          | none =>
            right
            simp only [Option.map, Commit, State.log]
            cases hcm : o (s.trace ++ [⟨.beginTx, none⟩] ++
                [⟨.insertUser un dbID now, none⟩] ++ [⟨.createUser un pw, none⟩] ++
                [⟨.grantAllPrivileges db un, none⟩]) .commit with
            | some e => exact Or.inl ⟨e, _, _, rfl, rfl, by simp⟩
            | none => exact Or.inr ⟨_, _, rfl, by simp [ht1], by simp⟩


theorem callTrace_of_trace (s st : State) (evs : List Event) (h : st.trace = s.trace ++ evs) :
    callTrace s st = evs := by
  simp [callTrace, h]

theorem Create_cases (o : Oracle) (u : UUIDs) (now : Time) (opts : List CreaterOption) (s : State) :
    CreateOutcome (resolveDatabase (NewCreaterOptions u opts))
      (resolveUsername (NewCreaterOptions u opts)) (resolvePassword (NewCreaterOptions u opts))
      now (NewCreaterOptions u opts).TTL s (Create o u now opts s) := by
  unfold CreateOutcome Create
  simp only []
  generalize resolveDatabase (NewCreaterOptions u opts) = db
  generalize resolveUsername (NewCreaterOptions u opts) = un
  generalize resolvePassword (NewCreaterOptions u opts) = pw
  generalize (NewCreaterOptions u opts).TTL = ttl
  rcases phaseA_cases o db now ttl s with ⟨e, err, st, h, ht, htr⟩ | ⟨e, err, st, h, ht, htr⟩ |
    ⟨hfresh, ⟨e, err, st, h, ht, htr⟩ | ⟨e, st, h, ht, htr⟩ | ⟨st, h, ht, hseq, htr⟩⟩
  · rw [h]
    exact Or.inl ⟨⟨_, rfl⟩, ht, Or.inl ⟨e, callTrace_of_trace _ _ _ htr⟩⟩
  · rw [h]
    exact Or.inl ⟨⟨_, rfl⟩, ht, Or.inr (Or.inl ⟨e, callTrace_of_trace _ _ _ htr⟩)⟩
  · rw [h]
    exact Or.inl ⟨⟨_, rfl⟩, ht,
      Or.inr (Or.inr (Or.inl ⟨hfresh, e, callTrace_of_trace _ _ _ htr⟩))⟩
  · rw [h]
    exact Or.inl ⟨⟨_, rfl⟩, ht,
      Or.inr (Or.inr (Or.inr ⟨hfresh, e, callTrace_of_trace _ _ _ htr⟩))⟩
  · rw [h]
    simp only []
    right
    have husers : st.tables.users = s.tables.users := by rw [ht]
    rcases phaseB_cases o db un pw now s.dbSeq st with
      ⟨e, err, l, st2, h2, ht2, htr2⟩ | ⟨e, err, l, st2, h2, ht2, htr2⟩ |
      ⟨hfu, ⟨e, err, l, st2, h2, ht2, htr2⟩ | ⟨e, err, l, st2, h2, ht2, htr2⟩ |
        ⟨e, l, st2, h2, ht2, htr2⟩ | ⟨l, st2, h2, ht2, htr2⟩⟩
    · rw [h2]
      refine Or.inl ⟨hfresh, ⟨_, rfl⟩, by rw [ht2, ht], Or.inl ⟨e, ?_⟩⟩
      exact callTrace_of_trace _ _ _ (by rw [htr2, htr]; simp)
    · rw [h2]
      refine Or.inl ⟨hfresh, ⟨_, rfl⟩, by rw [ht2, ht], Or.inr (Or.inl ⟨e, ?_⟩)⟩
      exact callTrace_of_trace _ _ _ (by rw [htr2, htr]; simp)
    · rw [h2]
      rw [husers, hseq] at hfu
      refine Or.inl ⟨hfresh, ⟨_, rfl⟩, by rw [ht2, ht], Or.inr (Or.inr (Or.inl ⟨hfu, e, ?_⟩))⟩
      exact callTrace_of_trace _ _ _ (by rw [htr2, htr]; simp)
    · rw [h2]
      rw [husers, hseq] at hfu
      refine Or.inl ⟨hfresh, ⟨_, rfl⟩, by rw [ht2, ht],
        Or.inr (Or.inr (Or.inr (Or.inl ⟨hfu, e, ?_⟩)))⟩
      exact callTrace_of_trace _ _ _ (by rw [htr2, htr]; simp)
    · rw [h2]
      rw [husers, hseq] at hfu
      refine Or.inl ⟨hfresh, ⟨_, rfl⟩, by rw [ht2, ht],
        Or.inr (Or.inr (Or.inr (Or.inr ⟨hfu, e, ?_⟩)))⟩
      exact callTrace_of_trace _ _ _ (by rw [htr2, htr]; simp)
    · rw [h2]
      rw [husers, hseq] at hfu
      refine Or.inr ⟨hfresh, hfu, rfl, by rw [ht2, ht, hseq], ?_⟩
      exact callTrace_of_trace _ _ _ (by rw [htr2, htr]; simp)


/-- C1: when, in a call of `Create`, the administrative statement of a phase
fails (`CREATE DATABASE` in the first transaction; `CREATE USER` or `GRANT` in
the second), the bookkeeping insert of that phase had succeeded, `Create`
returns an error, and the row inserted in that phase is not in the store
afterward: for the first phase the rows of `databases` are those before the
call, none of them with the name of the database; for the second phase the rows
of `users` are those before the call, none of them with the username. -/
theorem Create_admin_failure_rolls_back (o : Oracle) (u : UUIDs) (now : Time)
    (opts : List CreaterOption) (s : State) (e : Err)
    (h : (⟨.createDatabase (resolveDatabase (NewCreaterOptions u opts)), some e⟩ : Event) ∈
          callTrace s (Create o u now opts s).2 ∨
        (⟨.createUser (resolveUsername (NewCreaterOptions u opts))
            (resolvePassword (NewCreaterOptions u opts)), some e⟩ : Event) ∈
          callTrace s (Create o u now opts s).2 ∨
        (⟨.grantAllPrivileges (resolveDatabase (NewCreaterOptions u opts))
            (resolveUsername (NewCreaterOptions u opts)), some e⟩ : Event) ∈
          callTrace s (Create o u now opts s).2) :
    (∃ err, (Create o u now opts s).1 = .error err) ∧
    ((⟨.createDatabase (resolveDatabase (NewCreaterOptions u opts)), some e⟩ : Event) ∈
        callTrace s (Create o u now opts s).2 →
      (⟨.insertDatabase (resolveDatabase (NewCreaterOptions u opts)) now
          (now + (NewCreaterOptions u opts).TTL), none⟩ : Event) ∈
        callTrace s (Create o u now opts s).2 ∧
      (Create o u now opts s).2.tables.databases = s.tables.databases ∧
      ∀ row ∈ (Create o u now opts s).2.tables.databases,
        row.name ≠ resolveDatabase (NewCreaterOptions u opts)) ∧
    (((⟨.createUser (resolveUsername (NewCreaterOptions u opts))
            (resolvePassword (NewCreaterOptions u opts)), some e⟩ : Event) ∈
          callTrace s (Create o u now opts s).2 ∨
        (⟨.grantAllPrivileges (resolveDatabase (NewCreaterOptions u opts))
            (resolveUsername (NewCreaterOptions u opts)), some e⟩ : Event) ∈
          callTrace s (Create o u now opts s).2) →
      (∃ id, (⟨.insertUser (resolveUsername (NewCreaterOptions u opts)) id now, none⟩ : Event) ∈
        callTrace s (Create o u now opts s).2) ∧
      (Create o u now opts s).2.tables.users = s.tables.users ∧
      ∀ row ∈ (Create o u now opts s).2.tables.users,
        row.username ≠ resolveUsername (NewCreaterOptions u opts)) := by
  have hc := Create_cases o u now opts s
  revert h hc
  generalize Create o u now opts s = r
  generalize resolveDatabase (NewCreaterOptions u opts) = db
  generalize resolveUsername (NewCreaterOptions u opts) = un
  generalize resolvePassword (NewCreaterOptions u opts) = pw
  generalize (NewCreaterOptions u opts).TTL = ttl
  intro h hc
  unfold CreateOutcome at hc
  simp only [] at hc
  rcases hc with ⟨herr, ht, ⟨e1, htr⟩ | ⟨e1, htr⟩ | ⟨hf, e1, htr⟩ | ⟨hf, e1, htr⟩⟩ |
    ⟨hf, herr, ht, ⟨e1, htr⟩ | ⟨e1, htr⟩ | ⟨hfu, e1, htr⟩ | ⟨hfu, e1, htr⟩ | ⟨hfu, e1, htr⟩⟩ |
    ⟨hf, hfu, hok, ht, htr⟩
  · rw [htr] at h; simp at h
  · rw [htr] at h; simp at h
  · rw [htr, ht]
    refine ⟨herr, fun _ => ⟨by simp, rfl, fun row hrow => (hf row hrow).2⟩, ?_⟩
    intro h2; simp at h2
  · rw [htr] at h; simp at h
  · rw [htr] at h; simp at h
  · rw [htr] at h; simp at h
  · rw [htr, ht]
    refine ⟨herr, fun h2 => by simp at h2, fun _ => ⟨⟨s.dbSeq, by simp⟩, rfl, ?_⟩⟩
    exact fun row hrow => (hfu row hrow).2
  · rw [htr, ht]
    refine ⟨herr, fun h2 => by simp at h2, fun _ => ⟨⟨s.dbSeq, by simp⟩, rfl, ?_⟩⟩
    exact fun row hrow => (hfu row hrow).2
  · rw [htr] at h; simp at h
  · rw [htr] at h; simp at h


theorem Create_admin_failure_rolls_back_witness :
    ((∃ err, (Create (failOn (.createDatabase "acme") (.pq "53100")) someUUIDs 100
        [WithDatabase "acme", WithUsername "bob"] emptyState).1 = .error err) ∧
      (Create (failOn (.createDatabase "acme") (.pq "53100")) someUUIDs 100
        [WithDatabase "acme", WithUsername "bob"] emptyState).2.tables.databases = []) ∧
    ((∃ err, (Create (failOn (.grantAllPrivileges "acme" "bob") (.pq "42501")) someUUIDs 100
        [WithDatabase "acme", WithUsername "bob"] emptyState).1 = .error err) ∧
      (Create (failOn (.grantAllPrivileges "acme" "bob") (.pq "42501")) someUUIDs 100
        [WithDatabase "acme", WithUsername "bob"] emptyState).2.tables.users = []) :=
  ⟨⟨(Create_admin_failure_rolls_back (failOn (.createDatabase "acme") (.pq "53100")) someUUIDs 100
        [WithDatabase "acme", WithUsername "bob"] emptyState (.pq "53100")
        (Or.inl (by decide))).1,
    ((Create_admin_failure_rolls_back (failOn (.createDatabase "acme") (.pq "53100")) someUUIDs 100
        [WithDatabase "acme", WithUsername "bob"] emptyState (.pq "53100")
        (Or.inl (by decide))).2.1 (by decide)).2.1⟩,
   ⟨(Create_admin_failure_rolls_back (failOn (.grantAllPrivileges "acme" "bob") (.pq "42501"))
        someUUIDs 100 [WithDatabase "acme", WithUsername "bob"] emptyState (.pq "42501")
        (Or.inr (Or.inr (by decide)))).1,
    ((Create_admin_failure_rolls_back (failOn (.grantAllPrivileges "acme" "bob") (.pq "42501"))
        someUUIDs 100 [WithDatabase "acme", WithUsername "bob"] emptyState (.pq "42501")
        (Or.inr (Or.inr (by decide)))).2.2 (Or.inr (by decide))).2.1⟩⟩


/-- C2 as stated fails: with an explicit username that collides with an existing
user and a fresh database name, `Create` fails, but the row of the new database
(committed by the first transaction) remains. -/
theorem Create_username_collision_leaves_database :
    (∃ row ∈ storeWithBob.tables.users, row.username = "bob") ∧
    (∃ err, (Create allOk someUUIDs 100 [WithDatabase "acme", WithUsername "bob"]
      storeWithBob).1 = .error err) ∧
    (Create allOk someUUIDs 100 [WithDatabase "acme", WithUsername "bob"]
      storeWithBob).2.tables.databases =
        [⟨1, "main", none, 50, none⟩, ⟨2, "acme", some (100 + 10 * Minute), 100, none⟩] ∧
    (Create allOk someUUIDs 100 [WithDatabase "acme", WithUsername "bob"]
      storeWithBob).2.tables.databases ≠ storeWithBob.tables.databases := by
  exact ⟨by decide, ⟨_, rfl⟩, by decide, by decide⟩

/-- C2, amended: when the database name of a `Create` call collides with the
name of an existing `databases` row, or its username with the username of an
existing `users` row, `Create` fails and the `users` rows are exactly those
before the call. On a database-name collision both tables are exactly as
before. In general the `databases` rows are those before the call when the
first transaction did not commit, and those before plus the one new row when it
did (the second transaction does not undo the first). -/
theorem Create_collision_fails (o : Oracle) (u : UUIDs) (now : Time)
    (opts : List CreaterOption) (s : State)
    (h : (∃ row ∈ s.tables.databases, row.name = resolveDatabase (NewCreaterOptions u opts)) ∨
         (∃ row ∈ s.tables.users, row.username = resolveUsername (NewCreaterOptions u opts))) :
    (∃ err, (Create o u now opts s).1 = .error err) ∧
    (Create o u now opts s).2.tables.users = s.tables.users ∧
    ((∃ row ∈ s.tables.databases, row.name = resolveDatabase (NewCreaterOptions u opts)) →
      (Create o u now opts s).2.tables = s.tables) ∧
    ((⟨.commit, none⟩ : Event) ∉ callTrace s (Create o u now opts s).2 →
      (Create o u now opts s).2.tables.databases = s.tables.databases) ∧
    ((⟨.commit, none⟩ : Event) ∈ callTrace s (Create o u now opts s).2 →
      (Create o u now opts s).2.tables.databases = s.tables.databases ++
        [⟨s.dbSeq, resolveDatabase (NewCreaterOptions u opts),
          some (now + (NewCreaterOptions u opts).TTL), now, none⟩]) := by
  have hc := Create_cases o u now opts s
  revert h hc
  generalize Create o u now opts s = r
  generalize resolveDatabase (NewCreaterOptions u opts) = db
  generalize resolveUsername (NewCreaterOptions u opts) = un
  generalize resolvePassword (NewCreaterOptions u opts) = pw
  generalize (NewCreaterOptions u opts).TTL = ttl
  intro h hc
  unfold CreateOutcome at hc
  simp only [] at hc
  have hnodb : (∀ row ∈ s.tables.databases, row.id ≠ s.dbSeq ∧ row.name ≠ db) →
      ¬ ∃ row ∈ s.tables.databases, row.name = db := by
    rintro hf ⟨row, hrow, hn⟩
    exact (hf row hrow).2 hn
  have hnou : (∀ row ∈ s.tables.users, row.id ≠ s.userSeq ∧ row.username ≠ un) →
      ¬ ∃ row ∈ s.tables.users, row.username = un := by
    rintro hf ⟨row, hrow, hn⟩
    exact (hf row hrow).2 hn
  rcases hc with ⟨herr, ht, ⟨e1, htr⟩ | ⟨e1, htr⟩ | ⟨hf, e1, htr⟩ | ⟨hf, e1, htr⟩⟩ |
    ⟨hf, herr, ht, ⟨e1, htr⟩ | ⟨e1, htr⟩ | ⟨hfu, e1, htr⟩ | ⟨hfu, e1, htr⟩ | ⟨hfu, e1, htr⟩⟩ |
    ⟨hf, hfu, hok, ht, htr⟩
  · rw [htr, ht]; exact ⟨herr, rfl, fun _ => rfl, fun _ => rfl, fun h2 => by simp at h2⟩
  · rw [htr, ht]; exact ⟨herr, rfl, fun _ => rfl, fun _ => rfl, fun h2 => by simp at h2⟩
  · rw [htr, ht]; exact ⟨herr, rfl, fun _ => rfl, fun _ => rfl, fun h2 => by simp at h2⟩
  · rw [htr, ht]; exact ⟨herr, rfl, fun _ => rfl, fun _ => rfl, fun h2 => by simp at h2⟩
  · rw [htr, ht]
    exact ⟨herr, rfl, fun h2 => absurd h2 (hnodb hf), fun h2 => by simp at h2, fun _ => rfl⟩
  · rw [htr, ht]
    exact ⟨herr, rfl, fun h2 => absurd h2 (hnodb hf), fun h2 => by simp at h2, fun _ => rfl⟩
  · rcases h with h | h
    · exact absurd h (hnodb hf)
    · exact absurd h (hnou hfu)
  · rcases h with h | h
    · exact absurd h (hnodb hf)
    · exact absurd h (hnou hfu)
  · rcases h with h | h
    · exact absurd h (hnodb hf)
    · exact absurd h (hnou hfu)
  · rcases h with h | h
    · exact absurd h (hnodb hf)
    · exact absurd h (hnou hfu)

theorem Create_collision_fails_witness :
    (∃ err, (Create allOk someUUIDs 100 [WithDatabase "main", WithUsername "carol"]
      storeWithBob).1 = .error err) ∧
    (Create allOk someUUIDs 100 [WithDatabase "main", WithUsername "carol"]
      storeWithBob).2.tables = storeWithBob.tables :=
  ⟨(Create_collision_fails allOk someUUIDs 100 [WithDatabase "main", WithUsername "carol"]
      storeWithBob (Or.inl (by decide))).1,
   (Create_collision_fails allOk someUUIDs 100 [WithDatabase "main", WithUsername "carol"]
      storeWithBob (Or.inl (by decide))).2.2.1 (by decide)⟩


/-- What a successful `Create` returns and stores. -/
theorem Create_ok (o : Oracle) (u : UUIDs) (now : Time) (opts : List CreaterOption) (s : State)
    (db : DB) (hok : (Create o u now opts s).1 = .ok db) :
    db = ⟨resolveDatabase (NewCreaterOptions u opts), resolveUsername (NewCreaterOptions u opts),
      resolvePassword (NewCreaterOptions u opts),
      resolveExpiredAt now (NewCreaterOptions u opts).TTL⟩ ∧
    (Create o u now opts s).2.tables =
      ⟨s.tables.databases ++ [⟨s.dbSeq, resolveDatabase (NewCreaterOptions u opts),
          some (now + (NewCreaterOptions u opts).TTL), now, none⟩],
        s.tables.users ++ [⟨s.userSeq, resolveUsername (NewCreaterOptions u opts), s.dbSeq, now,
          none⟩]⟩ ∧
    (∀ row ∈ s.tables.databases,
      row.id ≠ s.dbSeq ∧ row.name ≠ resolveDatabase (NewCreaterOptions u opts)) ∧
    (∀ row ∈ s.tables.users,
      row.id ≠ s.userSeq ∧ row.username ≠ resolveUsername (NewCreaterOptions u opts)) := by
  have hc := Create_cases o u now opts s
  revert hok hc
  generalize Create o u now opts s = r
  intro hok hc
  unfold CreateOutcome at hc
  simp only [] at hc
  rcases hc with ⟨⟨err, herr⟩, -⟩ | ⟨-, ⟨err, herr⟩, -⟩ | ⟨hf, hfu, hr, ht, -⟩
  · rw [herr] at hok; cases hok
  · rw [herr] at hok; cases hok
  · rw [hr] at hok
    cases hok
    exact ⟨rfl, ht, hf, hfu⟩

/-- C3, the code at a failing input: a `Create` with `ttl = 0` returns a
credential without expiry, but the stored row has `expired_at = now` (100),
and a `DeleteExpired` one tick later selects and removes the record. -/
theorem Create_ttl_zero_is_swept :
    (Create allOk someUUIDs 100 [WithDatabase "acme", WithUsername "bob", WithTTL 0]
      emptyState).1 = .ok ⟨"acme", "bob", "p", none⟩ ∧
    (Create allOk someUUIDs 100 [WithDatabase "acme", WithUsername "bob", WithTTL 0]
      emptyState).2.tables.databases = [⟨1, "acme", some 100, 100, none⟩] ∧
    (DeleteExpired allOk ⟨false⟩ 101
      (Create allOk someUUIDs 100 [WithDatabase "acme", WithUsername "bob", WithTTL 0]
        emptyState).2).1 = .ok [⟨"acme", "bob", "", some 100⟩] ∧
    (DeleteExpired allOk ⟨false⟩ 101
      (Create allOk someUUIDs 100 [WithDatabase "acme", WithUsername "bob", WithTTL 0]
        emptyState).2).2.tables = ⟨[], []⟩ := by
  exact ⟨by decide, by decide, by decide, by decide⟩

/-- C4: after a successful `Create` with `ttl = d`, `d ≠ 0`, the store holds
one new `databases` row, named as the returned credential; its `created_at` is
the `now` of the call, and its `expired_at` and the `ExpiredAt` of the returned
credential are both `created_at + d`. -/
theorem Create_expiry_exact (o : Oracle) (u : UUIDs) (now : Time) (opts : List CreaterOption)
    (s : State) (db : DB) (hok : (Create o u now opts s).1 = .ok db)
    (hd : (NewCreaterOptions u opts).TTL ≠ 0) :
    ∃ row : DatabaseRecord,
      (Create o u now opts s).2.tables.databases = s.tables.databases ++ [row] ∧
      row.name = db.Database ∧
      (∀ old ∈ s.tables.databases, old.name ≠ db.Database) ∧
      row.createdAt = now ∧
      row.expiredAt = db.ExpiredAt ∧
      row.expiredAt = some (row.createdAt + (NewCreaterOptions u opts).TTL) ∧
      db.ExpiredAt = some (row.createdAt + (NewCreaterOptions u opts).TTL) := by
  obtain ⟨hdb, ht, hf, -⟩ := Create_ok o u now opts s db hok
  refine ⟨⟨s.dbSeq, resolveDatabase (NewCreaterOptions u opts),
    some (now + (NewCreaterOptions u opts).TTL), now, none⟩, ?_, ?_, ?_, rfl, ?_, rfl, ?_⟩
  · rw [ht]
  · rw [hdb]
  · intro old hold
    rw [hdb]
    exact (hf old hold).2
  · rw [hdb]
    simp [resolveExpiredAt, hd]
  · rw [hdb]
    simp [resolveExpiredAt, hd]

theorem Create_expiry_exact_witness :
    ∃ row : DatabaseRecord,
      (Create allOk someUUIDs 100 [WithDatabase "acme", WithUsername "bob", WithTTL 30]
        emptyState).2.tables.databases = emptyState.tables.databases ++ [row] ∧
      row.name = "acme" ∧
      (∀ old ∈ emptyState.tables.databases, old.name ≠ "acme") ∧
      row.createdAt = 100 ∧
      row.expiredAt = some 130 ∧
      row.expiredAt = some (row.createdAt + 30) ∧
      some (130 : Time) = some (row.createdAt + 30) :=
  Create_expiry_exact allOk someUUIDs 100 [WithDatabase "acme", WithUsername "bob", WithTTL 30]
    emptyState ⟨"acme", "bob", "p", some 130⟩ (by decide) (by decide)


/-! ## The transaction helper -/

/-- C8: on a transaction that was begun, `Transaction` performs exactly one of
commit and rollback after `fn`, as the one statement it adds to those of `fn`.
When `fn` returns nil it is a commit, whose result is returned, and a commit
that succeeds publishes the tables of the transaction. When `fn` returns an
error it is a rollback, the committed tables are those `fn` left, and the same
error is returned. When `fn` panics it is a rollback and the same panic value
propagates. -/
theorem Transaction_commit_xor_rollback {L : Type} (o : Oracle)
    (fn : L → State → FnResult × L × State) (l : L) (s : State)
    (hbegin : (BeginTx o s).1 = none) :
    (∀ l2 s2, fn l (BeginTx o s).2 = (.returned none, l2, s2) →
      Transaction o fn l s = (.returned (Commit o s2).1, l2, (Commit o s2).2) ∧
      (Commit o s2).2.trace = s2.trace ++ [⟨.commit, (Commit o s2).1⟩] ∧
      (∀ t, s2.tx = some t → (Commit o s2).1 = none → (Commit o s2).2.tables = t) ∧
      ((Commit o s2).1 ≠ none → (Commit o s2).2.tables = s2.tables)) ∧
    (∀ err l2 s2, fn l (BeginTx o s).2 = (.returned (some err), l2, s2) →
      Transaction o fn l s = (.returned (some err), l2, Rollback s2) ∧
      (Rollback s2).trace = s2.trace ++ [⟨.rollback, none⟩] ∧
      (Rollback s2).tables = s2.tables) ∧
    (∀ r l2 s2, fn l (BeginTx o s).2 = (.panicked r, l2, s2) →
      Transaction o fn l s = (.panicked r, l2, Rollback s2) ∧
      (Rollback s2).trace = s2.trace ++ [⟨.rollback, none⟩] ∧
      (Rollback s2).tables = s2.tables) := by
  have hb : BeginTx o s = (none, (BeginTx o s).2) := by
    rw [← hbegin]
  refine ⟨?_, ?_, ?_⟩
  · intro l2 s2 hfn
    refine ⟨?_, ?_, ?_, ?_⟩
    · unfold Transaction
      rw [hb]
      simp only [hfn]
    · unfold Commit
      cases htx : s2.tx with
      | none => simp [State.log]
      | some t => cases ho : o s2.trace .commit <;> simp [State.log]
    · intro t htx hc
      unfold Commit at hc ⊢
      rw [htx] at hc ⊢
      cases ho : o s2.trace .commit with
      | none => simp [State.log]
      | some e => simp [ho] at hc
    · intro hc
      unfold Commit at hc ⊢
      cases htx : s2.tx with
      | none => simp [State.log]
      | some t =>
        cases ho : o s2.trace .commit with
        | none => simp [htx, ho] at hc
        | some e => simp [State.log]
  · intro err l2 s2 hfn
    refine ⟨?_, rfl, rfl⟩
    unfold Transaction
    rw [hb]
    simp only [hfn]
  · intro r l2 s2 hfn
    refine ⟨?_, rfl, rfl⟩
    unfold Transaction
    rw [hb]
    simp only [hfn]

theorem Transaction_commit_xor_rollback_witness :
    Transaction allOk (fun (l : Unit) s => (.returned none, l, s)) () emptyState =
      (.returned none, (), ⟨⟨[], []⟩, none, 1, 1, [⟨.beginTx, none⟩, ⟨.commit, none⟩]⟩) ∧
    Transaction allOk (fun (l : Unit) s => (.returned (some (.other "boom")), l, s)) ()
        emptyState =
      (.returned (some (.other "boom")), (),
        ⟨⟨[], []⟩, none, 1, 1, [⟨.beginTx, none⟩, ⟨.rollback, none⟩]⟩) ∧
    Transaction allOk (fun (l : Unit) s => (.panicked ⟨"boom"⟩, l, s)) () emptyState =
      (.panicked ⟨"boom"⟩, (), ⟨⟨[], []⟩, none, 1, 1, [⟨.beginTx, none⟩, ⟨.rollback, none⟩]⟩) :=
  ⟨((Transaction_commit_xor_rollback allOk (fun (l : Unit) s => (.returned none, l, s)) ()
      emptyState rfl).1 () _ rfl).1,
   ((Transaction_commit_xor_rollback allOk
      (fun (l : Unit) s => (.returned (some (.other "boom")), l, s)) ()
      emptyState rfl).2.1 _ () _ rfl).1,
   ((Transaction_commit_xor_rollback allOk (fun (l : Unit) s => (.panicked ⟨"boom"⟩, l, s)) ()
      emptyState rfl).2.2 _ () _ rfl).1⟩


/-! ## Traces of the loops of `DeleteExpired` -/

theorem Step_rootExec (o : Oracle) (st : Stmt) : Step st.rank st.rank (rootExec o st) := by
  intro s
  refine ⟨rfl, [⟨st, o s.trace st⟩], rfl, ?_, by simp, ?_⟩
  · intro ev hev
    simp only [List.mem_singleton] at hev
    subst hev
    exact ⟨le_refl _, le_refl _⟩
  · intro h ev hev
    simp only [List.mem_singleton] at hev
    subst hev
    exact h

theorem Step_txExec (o : Oracle) (st : Stmt) (apply : Tables → Except Err Tables) :
    Step st.rank st.rank (txExec o st apply) := by
  intro s
  have key : ∀ e, (∀ ev ∈ [(⟨st, e⟩ : Event)], st.rank ≤ ev.stmt.rank ∧ ev.stmt.rank ≤ st.rank) := by
    intro e ev hev
    simp only [List.mem_singleton] at hev
    subst hev
    exact ⟨le_refl _, le_refl _⟩
  unfold txExec
  cases htx : s.tx with
  | none => exact ⟨rfl, [⟨st, some ErrTxDone⟩], rfl, key _, by simp, by simp⟩
  | some t =>
    dsimp only
    cases ho : o s.trace st with
    | some e => exact ⟨rfl, [⟨st, some e⟩], rfl, key _, by simp, by simp⟩
    | none =>
      dsimp only
      cases ha : apply t with
      | error e => exact ⟨rfl, [⟨st, some e⟩], rfl, key _, by simp, by simp⟩
      | ok t1 => exact ⟨rfl, [⟨st, none⟩], rfl, key _, by simp, by simp⟩

theorem Step_wrapErr (lo hi : Nat) (msg : String) (f : State → Option Err × State)
    (hf : Step lo hi f) : Step lo hi (fun s => wrapErr msg (f s)) := by
  intro s
  obtain ⟨ht, evs, htr, hr, hp, hok⟩ := hf s
  have h1 : (wrapErr msg (f s)).2 = (f s).2 := by
    unfold wrapErr
    rcases f s with ⟨_ | e, s1⟩ <;> rfl
  have h2 : (wrapErr msg (f s)).1 = none → (f s).1 = none := by
    unfold wrapErr
    rcases f s with ⟨_ | e, s1⟩ <;> simp
  simp only [h1]
  exact ⟨ht, evs, htr, hr, hp, fun h => hok (h2 h)⟩

theorem Step_andThen (lo1 hi1 lo2 hi2 : Nat) (f g : State → Option Err × State)
    (hf : Step lo1 hi1 f) (hg : Step lo2 hi2 g) (hlo : lo1 ≤ lo2) (hmid : hi1 ≤ lo2)
    (hhi : hi1 ≤ hi2) : Step lo1 hi2 (andThen f g) := by
  intro s
  obtain ⟨ht, evs, htr, hr, hp, hok⟩ := hf s
  unfold andThen
  rcases hfs : f s with ⟨_ | e, s1⟩
  · rw [hfs] at ht htr hok
    obtain ⟨ht2, evs2, htr2, hr2, hp2, hok2⟩ := hg s1
    simp only at ht htr hok ⊢
    refine ⟨by rw [ht2, ht], evs ++ evs2, by rw [htr2, htr, List.append_assoc], ?_, ?_, ?_⟩
    · intro ev hev
      rcases List.mem_append.mp hev with h | h
      · exact ⟨(hr ev h).1, le_trans (hr ev h).2 hhi⟩
      · exact ⟨le_trans hlo (hr2 ev h).1, (hr2 ev h).2⟩
    · rw [List.pairwise_append]
      refine ⟨hp, hp2, ?_⟩
      intro a ha b hb
      exact ⟨le_trans (hr a ha).2 (le_trans hmid (hr2 b hb).1), hok trivial a ha⟩
    · intro h ev hev
      rcases List.mem_append.mp hev with h1 | h1
      · exact hok trivial ev h1
      · exact hok2 h ev h1
  · rw [hfs] at ht htr hok
    simp only at ht htr hok ⊢
    refine ⟨ht, evs, htr, ?_, hp, by simp⟩
    intro ev hev
    exact ⟨(hr ev hev).1, le_trans (hr ev hev).2 hhi⟩

theorem forEach_cons {α : Type} (body : α → State → Option Err × State) (x : α) (xs : List α) :
    forEach body (x :: xs) = andThen (body x) (forEach body xs) := by
  funext s
  simp only [forEach, andThen]

theorem Step_forEach {α : Type} (k : Nat) (body : α → State → Option Err × State)
    (hb : ∀ x, Step k k (body x)) (xs : List α) : Step k k (forEach body xs) := by
  induction xs with
  | nil =>
    intro s
    exact ⟨rfl, [], by simp [forEach], by simp, by simp, by simp⟩
  | cons x xs ih =>
    rw [forEach_cons]
    exact Step_andThen k k k k _ _ (hb x) ih (le_refl _) (le_refl _) (le_refl _)


theorem sweep_eq (o : Oracle) (p : Postgres) (now : Time) (databases : List database) :
    sweep o p now databases =
      andThen (forEach (fun database => fun s =>
          wrapErr "cannot drop database" (dropDatabase o database.Name s)) databases)
        (andThen (forEach (fun database => forEach (fun user => fun s =>
            wrapErr "cannot drop user" (dropUser o user.Username s)) database.Users) databases)
          (andThen (forEach (fun database => forEach (deleteUserRow o p now) database.Users)
              databases)
            (forEach (deleteDatabaseRow o p now) databases))) := by
  funext s
  rfl

theorem Step_deleteUserRow (o : Oracle) (p : Postgres) (now : Time) (user : user) :
    Step 4 4 (deleteUserRow o p now user) := by
  unfold deleteUserRow
  cases p.softDelete
  · exact Step_wrapErr 4 4 _ _ (Step_txExec o (.deleteUser user.ID) _)
  · exact Step_wrapErr 4 4 _ _ (Step_txExec o (.updateUser now user.ID) _)

theorem Step_deleteDatabaseRow (o : Oracle) (p : Postgres) (now : Time) (database : database) :
    Step 5 5 (deleteDatabaseRow o p now database) := by
  unfold deleteDatabaseRow
  cases p.softDelete
  · exact Step_wrapErr 5 5 _ _ (Step_txExec o (.deleteDatabase database.ID) _)
  · exact Step_wrapErr 5 5 _ _ (Step_txExec o (.updateDatabase now database.ID) _)

theorem Step_dropDatabase (o : Oracle) (name : String) :
    Step 2 2 (fun s => wrapErr "cannot drop database" (dropDatabase o name s)) :=
  Step_wrapErr 2 2 _ _ (Step_wrapErr 2 2 _ _ (Step_rootExec o (.dropDatabase name)))

theorem Step_dropUser (o : Oracle) (username : String) :
    Step 3 3 (fun s => wrapErr "cannot drop user" (dropUser o username s)) :=
  Step_wrapErr 3 3 _ _ (Step_wrapErr 3 3 _ _ (Step_rootExec o (.dropUser username)))

theorem Step_sweep (o : Oracle) (p : Postgres) (now : Time) (databases : List database) :
    Step 2 5 (sweep o p now databases) := by
  rw [sweep_eq]
  have h1 : Step 2 2 (forEach (fun database => fun s =>
      wrapErr "cannot drop database" (dropDatabase o database.Name s)) databases) :=
    Step_forEach 2 _ (fun (d : database) => Step_dropDatabase o d.Name) _
  have h2 : Step 3 3 (forEach (fun database => forEach (fun user => fun s =>
      wrapErr "cannot drop user" (dropUser o user.Username s)) database.Users) databases) :=
    Step_forEach 3 _ (fun (d : database) =>
      Step_forEach 3 _ (fun (u : user) => Step_dropUser o u.Username) d.Users) _
  have h3 : Step 4 4 (forEach (fun database => forEach (deleteUserRow o p now) database.Users)
      databases) :=
    Step_forEach 4 _ (fun (d : database) =>
      Step_forEach 4 _ (Step_deleteUserRow o p now) d.Users) _
  have h4 : Step 5 5 (forEach (deleteDatabaseRow o p now) databases) :=
    Step_forEach 5 _ (Step_deleteDatabaseRow o p now) _
  exact Step_andThen 2 2 3 5 _ _ h1
    (Step_andThen 3 3 4 5 _ _ h2
      (Step_andThen 4 4 5 5 _ _ h3 h4 (by decide) (by decide) (by decide))
      (by decide) (by decide) (by decide))
    (by decide) (by decide) (by decide)


/-! ## Effect of the loops of `DeleteExpired` on the open transaction -/

theorem wrapErr_fst_none (msg : String) (r : Option Err × State) :
    (wrapErr msg r).1 = none ↔ r.1 = none := by
  unfold wrapErr
  rcases r with ⟨_ | e, s1⟩ <;> simp

theorem wrapErr_snd (msg : String) (r : Option Err × State) : (wrapErr msg r).2 = r.2 := by
  unfold wrapErr
  rcases r with ⟨_ | e, s1⟩ <;> rfl

theorem TxEffect_wrapErr (g : Tables → Tables) (msg : String) (f : State → Option Err × State)
    (hf : TxEffect g f) : TxEffect g (fun s => wrapErr msg (f s)) := by
  intro s t htx hok
  simp only [wrapErr_snd]
  exact hf s t htx ((wrapErr_fst_none msg (f s)).mp hok)

theorem TxEffect_congr (g g1 : Tables → Tables) (f : State → Option Err × State)
    (h : ∀ t, g t = g1 t) (hf : TxEffect g f) : TxEffect g1 f := by
  intro s t htx hok
  rw [← h t]
  exact hf s t htx hok

theorem TxEffect_andThen (g1 g2 : Tables → Tables) (f1 f2 : State → Option Err × State)
    (h1 : TxEffect g1 f1) (h2 : TxEffect g2 f2) :
    TxEffect (fun t => g2 (g1 t)) (andThen f1 f2) := by
  intro s t htx hok
  have e1 := h1 s t htx
  unfold andThen at hok ⊢
  rcases hfs : f1 s with ⟨_ | e, s1⟩
  · rw [hfs] at e1 hok
    simp only at e1 hok ⊢
    exact h2 s1 (g1 t) (e1 trivial) hok
  · rw [hfs] at hok
    simp at hok

theorem TxEffect_rootExec (o : Oracle) (st : Stmt) : TxEffect id (rootExec o st) := by
  intro s t htx _
  exact htx

theorem TxEffect_txExec (o : Oracle) (st : Stmt) (apply : Tables → Except Err Tables)
    (g : Tables → Tables) (h : ∀ t t1, apply t = .ok t1 → t1 = g t) :
    TxEffect g (txExec o st apply) := by
  intro s t htx hok
  unfold txExec at hok ⊢
  rw [htx] at hok ⊢
  dsimp only at hok ⊢
  cases ho : o s.trace st with
  | some e => rw [ho] at hok; simp at hok
  | none =>
    rw [ho] at hok
    dsimp only at hok ⊢
    cases ha : apply t with
    | error e => rw [ha] at hok; simp at hok
    | ok t1 =>
      dsimp only
      rw [h t t1 ha]

theorem TxEffect_forEach_id {α : Type} (body : α → State → Option Err × State)
    (hb : ∀ x, TxEffect id (body x)) (xs : List α) : TxEffect id (forEach body xs) := by
  induction xs with
  | nil =>
    intro s t htx _
    exact htx
  | cons x xs ih =>
    rw [forEach_cons]
    exact TxEffect_andThen id id _ _ (hb x) ih

theorem reclaimUsers_nil (sd : Bool) (now : Time) (rows : List UserRecord) :
    reclaimUsers sd now [] rows = rows := by
  unfold reclaimUsers
  cases sd <;> simp

theorem reclaimUsers_append (sd : Bool) (now : Time) (ids1 ids2 : List Int)
    (rows : List UserRecord) :
    reclaimUsers sd now ids2 (reclaimUsers sd now ids1 rows) =
      reclaimUsers sd now (ids1 ++ ids2) rows := by
  unfold reclaimUsers
  cases sd
  · simp only [Bool.false_eq_true, if_false, List.filter_filter]
    apply List.filter_congr
    intro u _
    simp only [List.mem_append, not_or, Bool.decide_and, Bool.and_comm]
  · simp only [if_true, List.map_map]
    apply List.map_congr_left
    intro u _
    simp only [Function.comp, List.mem_append]
    by_cases h1 : u.id ∈ ids1
    · simp [h1]
    · simp [h1]

theorem reclaimDatabases_nil (sd : Bool) (now : Time) (rows : List DatabaseRecord) :
    reclaimDatabases sd now [] rows = rows := by
  unfold reclaimDatabases
  cases sd <;> simp

theorem reclaimDatabases_append (sd : Bool) (now : Time) (ids1 ids2 : List Int)
    (rows : List DatabaseRecord) :
    reclaimDatabases sd now ids2 (reclaimDatabases sd now ids1 rows) =
      reclaimDatabases sd now (ids1 ++ ids2) rows := by
  unfold reclaimDatabases
  cases sd
  · simp only [Bool.false_eq_true, if_false, List.filter_filter]
    apply List.filter_congr
    intro u _
    simp only [List.mem_append, not_or, Bool.decide_and, Bool.and_comm]
  · simp only [if_true, List.map_map]
    apply List.map_congr_left
    intro u _
    simp only [Function.comp, List.mem_append]
    by_cases h1 : u.id ∈ ids1
    · simp [h1]
    · simp [h1]


theorem TxEffect_deleteUserRow (o : Oracle) (p : Postgres) (now : Time) (user : user) :
    TxEffect (fun t => { t with users := reclaimUsers p.softDelete now [user.ID] t.users })
      (deleteUserRow o p now user) := by
  unfold deleteUserRow reclaimUsers
  cases p.softDelete
  · refine TxEffect_wrapErr _ _ _ (TxEffect_txExec o _ _ _ ?_)
    intro t t1 h
    simp only [Tables.deleteUser, Except.ok.injEq] at h
    simp [← h]
  · refine TxEffect_wrapErr _ _ _ (TxEffect_txExec o _ _ _ ?_)
    intro t t1 h
    simp only [Tables.updateUser, Except.ok.injEq] at h
    simp [← h]

theorem TxEffect_deleteDatabaseRow (o : Oracle) (p : Postgres) (now : Time) (d : database) :
    TxEffect
      (fun t => { t with databases := reclaimDatabases p.softDelete now [d.ID] t.databases })
      (deleteDatabaseRow o p now d) := by
  unfold deleteDatabaseRow reclaimDatabases
  cases p.softDelete
  · refine TxEffect_wrapErr _ _ _ (TxEffect_txExec o _ _ _ ?_)
    intro t t1 h
    unfold Tables.deleteDatabase at h
    split at h
    · simp at h
    · simp only [Except.ok.injEq] at h
      simp [← h]
  · refine TxEffect_wrapErr _ _ _ (TxEffect_txExec o _ _ _ ?_)
    intro t t1 h
    simp only [Tables.updateDatabase, Except.ok.injEq] at h
    simp [← h]

theorem TxEffect_users_loop (o : Oracle) (p : Postgres) (now : Time) (users : List user) :
    TxEffect
      (fun t => { t with
        users := reclaimUsers p.softDelete now (users.map (fun u => u.ID)) t.users })
      (forEach (deleteUserRow o p now) users) := by
  induction users with
  | nil =>
    intro s t htx _
    simp only [List.map_nil, reclaimUsers_nil]
    exact htx
  | cons x xs ih =>
    rw [forEach_cons]
    refine TxEffect_congr _ _ _ ?_
      (TxEffect_andThen _ _ _ _ (TxEffect_deleteUserRow o p now x) ih)
    intro t
    simp only [reclaimUsers_append, List.map_cons, List.singleton_append]

theorem TxEffect_all_users (o : Oracle) (p : Postgres) (now : Time) (dbs : List database) :
    TxEffect (fun t => { t with users := reclaimUsers p.softDelete now (userIDs dbs) t.users })
      (forEach (fun database => forEach (deleteUserRow o p now) database.Users) dbs) := by
  induction dbs with
  | nil =>
    intro s t htx _
    simp only [userIDs, List.map_nil, List.flatten_nil, reclaimUsers_nil]
    exact htx
  | cons x xs ih =>
    rw [forEach_cons]
    refine TxEffect_congr _ _ _ ?_
      (TxEffect_andThen _ _ _ _ (TxEffect_users_loop o p now x.Users) ih)
    intro t
    simp only [reclaimUsers_append, userIDs, List.map_cons, List.flatten_cons]

theorem TxEffect_databases_loop (o : Oracle) (p : Postgres) (now : Time) (dbs : List database) :
    TxEffect
      (fun t => { t with
        databases := reclaimDatabases p.softDelete now (dbs.map (fun d => d.ID)) t.databases })
      (forEach (deleteDatabaseRow o p now) dbs) := by
  induction dbs with
  | nil =>
    intro s t htx _
    simp only [List.map_nil, reclaimDatabases_nil]
    exact htx
  | cons x xs ih =>
    rw [forEach_cons]
    refine TxEffect_congr _ _ _ ?_
      (TxEffect_andThen _ _ _ _ (TxEffect_deleteDatabaseRow o p now x) ih)
    intro t
    simp only [reclaimDatabases_append, List.map_cons, List.singleton_append]

theorem TxEffect_sweep (o : Oracle) (p : Postgres) (now : Time) (dbs : List database) :
    TxEffect (reclaim p.softDelete now dbs) (sweep o p now dbs) := by
  rw [sweep_eq]
  have h1 : TxEffect id (forEach (fun database => fun s =>
      wrapErr "cannot drop database" (dropDatabase o database.Name s)) dbs) :=
    TxEffect_forEach_id _ (fun (d : database) => TxEffect_wrapErr id _ _
      (TxEffect_wrapErr id _ _ (TxEffect_rootExec o (.dropDatabase d.Name)))) _
  have h2 : TxEffect id (forEach (fun database => forEach (fun user => fun s =>
      wrapErr "cannot drop user" (dropUser o user.Username s)) database.Users) dbs) :=
    TxEffect_forEach_id _ (fun (d : database) =>
      TxEffect_forEach_id _ (fun (u : user) => TxEffect_wrapErr id _ _
        (TxEffect_wrapErr id _ _ (TxEffect_rootExec o (.dropUser u.Username)))) d.Users) _
  refine TxEffect_congr _ _ _ ?_
    (TxEffect_andThen _ _ _ _ h1 (TxEffect_andThen _ _ _ _ h2
      (TxEffect_andThen _ _ _ _ (TxEffect_all_users o p now dbs)
        (TxEffect_databases_loop o p now dbs))))
  intro t
  rfl


theorem DeleteExpired_cases (o : Oracle) (p : Postgres) (now : Time) (s : State) :
    DeleteExpiredOutcome p now s (DeleteExpired o p now s) := by
  unfold DeleteExpiredOutcome DeleteExpired Transaction BeginTx
  cases hb : o s.trace .beginTx with
  | some e =>
    exact Or.inl ⟨⟨_, rfl⟩, rfl, Or.inl ⟨e, callTrace_of_trace _ _ _ rfl⟩⟩
  | none =>
    simp only [deleteExpiredFn, list, State.log, if_true]
    cases hs : o (s.trace ++ [⟨.beginTx, none⟩]) (.selectExpired now) with
    | some e =>
      exact Or.inl ⟨⟨_, rfl⟩, rfl,
        Or.inr (Or.inl ⟨e, callTrace_of_trace _ _ _ (by simp [Rollback, State.log])⟩)⟩
    | none =>
      dsimp only
      cases hscan : scanRows (s.tables.selectExpired now) [] with
      | error e =>
        exact Or.inl ⟨⟨_, rfl⟩, rfl, Or.inr (Or.inr (Or.inl
          ⟨⟨e, rfl⟩, callTrace_of_trace _ _ _ (by simp [Rollback, State.log])⟩))⟩
      | ok groups =>
        dsimp only
        obtain ⟨ht, evs, htr, hr, hp, hok⟩ := Step_sweep o p now groups
          ⟨s.tables, some s.tables, s.dbSeq, s.userSeq,
            s.trace ++ [⟨.beginTx, none⟩] ++ [⟨.selectExpired now, none⟩]⟩
        have hfx := TxEffect_sweep o p now groups
          ⟨s.tables, some s.tables, s.dbSeq, s.userSeq,
            s.trace ++ [⟨.beginTx, none⟩] ++ [⟨.selectExpired now, none⟩]⟩ s.tables rfl
        rcases hsw : sweep o p now groups
          ⟨s.tables, some s.tables, s.dbSeq, s.userSeq,
            s.trace ++ [⟨.beginTx, none⟩] ++ [⟨.selectExpired now, none⟩]⟩ with ⟨_ | e, s2⟩
        · rw [hsw] at ht htr hok hfx
          simp only at ht htr hok hfx
          have hall := hok trivial
          have htx := hfx trivial
          simp only [hsw]
          unfold Commit
          rw [htx]
          dsimp only
          cases hc : o s2.trace .commit with
          | some e =>
            refine Or.inl ⟨⟨_, rfl⟩, ht, Or.inr (Or.inr (Or.inr (Or.inr
              ⟨groups, evs, e, rfl, ⟨hr, hp⟩, hall, callTrace_of_trace _ _ _ ?_⟩)))⟩
            simp [State.log, htr]
          | none =>
            refine Or.inr ⟨groups, evs, rfl, ⟨hr, hp⟩, hall, rfl, rfl,
              callTrace_of_trace _ _ _ ?_⟩
            simp [State.log, htr]
        · rw [hsw] at ht htr
          simp only at ht htr
          simp only [hsw]
          refine Or.inl ⟨⟨_, rfl⟩, ht, Or.inr (Or.inr (Or.inr (Or.inl
            ⟨groups, evs, rfl, ⟨hr, hp⟩, callTrace_of_trace _ _ _ ?_⟩)))⟩
          simp [Rollback, State.log, htr]


theorem rank_of_mutation (st : Stmt) (h : st.isMutation = true) : 4 ≤ st.rank := by
  cases st <;> simp [Stmt.isMutation] at h <;> simp [Stmt.rank]

theorem rank_of_drop (st : Stmt) (h : st.isDrop = true) : st.rank ≤ 3 := by
  cases st <;> simp [Stmt.isDrop] at h <;> simp [Stmt.rank]

theorem before_no_drop_after_mutation (a b : Event) (h : a.before b) :
    a.stmt.isMutation = true → b.stmt.isDrop = false := by
  intro hm
  cases hd : b.stmt.isDrop with
  | false => rfl
  | true =>
    have h1 := rank_of_mutation a.stmt hm
    have h2 := rank_of_drop b.stmt hd
    have h3 := h.1
    omega

theorem before_failure_last (a b : Event) (h : a.before b) :
    a.err ≠ none → b.stmt = .rollback := by
  intro he
  rcases h.2 with h1 | h1
  · exact absurd h1 he
  · exact h1

theorem before_frame (now : Time) (evs : List Event) (last : Event) (hs : SweepEvents evs)
    (hlast : last.stmt.rank = 6)
    (h : (∀ ev ∈ evs, ev.err = none) ∨ last.stmt = .rollback) :
    List.Pairwise Event.before
      ([(⟨.beginTx, none⟩ : Event), ⟨.selectExpired now, none⟩] ++ evs ++ [last]) := by
  obtain ⟨hr, hp⟩ := hs
  rw [List.pairwise_append]
  refine ⟨?_, List.pairwise_singleton _ _, ?_⟩
  · rw [List.pairwise_append]
    refine ⟨?_, ?_, ?_⟩
    · simp [Event.before, Stmt.rank]
    · have himp : ∀ a b : Event, (a.stmt.rank ≤ b.stmt.rank ∧ a.err = none) → a.before b :=
        fun a b hab => ⟨hab.1, Or.inl hab.2⟩
      exact hp.imp (himp _ _)
    · intro a ha b hb
      have hb2 := (hr b hb).1
      simp only [List.mem_cons, List.mem_singleton, List.not_mem_nil, or_false] at ha
      rcases ha with rfl | rfl
      · exact ⟨Nat.zero_le _, Or.inl rfl⟩
      · exact ⟨by show 1 ≤ b.stmt.rank; omega, Or.inl rfl⟩
  · intro a ha b hb
    simp only [List.mem_singleton] at hb
    subst hb
    rcases List.mem_append.mp ha with ha | ha
    · simp only [List.mem_cons, List.mem_singleton, List.not_mem_nil, or_false] at ha
      rcases ha with rfl | rfl
      · exact ⟨Nat.zero_le _, Or.inl rfl⟩
      · exact ⟨by show 1 ≤ b.stmt.rank; omega, Or.inl rfl⟩
    · refine ⟨by have := (hr a ha).2; omega, ?_⟩
      rcases h with h | h
      · exact Or.inl (h a ha)
      · exact Or.inr h

theorem DeleteExpired_trace_before (o : Oracle) (p : Postgres) (now : Time) (s : State) :
    (callTrace s (DeleteExpired o p now s).2).Pairwise Event.before := by
  have hc := DeleteExpired_cases o p now s
  revert hc
  generalize DeleteExpired o p now s = r
  intro hc
  unfold DeleteExpiredOutcome at hc
  rcases hc with ⟨-, -, ⟨e, htr⟩ | ⟨e, htr⟩ | ⟨-, htr⟩ | ⟨groups, evs, -, hs, htr⟩ |
    ⟨groups, evs, e, -, hs, hall, htr⟩⟩ | ⟨groups, evs, -, hs, hall, -, -, htr⟩
  · rw [htr]; exact List.pairwise_singleton _ _
  · rw [htr]; simp [Event.before, Stmt.rank]
  · rw [htr]; simp [Event.before, Stmt.rank]
  · rw [htr]; exact before_frame now evs ⟨.rollback, none⟩ hs rfl (Or.inr rfl)
  · rw [htr]; exact before_frame now evs ⟨.commit, some e⟩ hs rfl (Or.inl hall)
  · rw [htr]; exact before_frame now evs ⟨.commit, none⟩ hs rfl (Or.inl hall)

/-- C7: among the statements of one `DeleteExpired` call, no `DROP DATABASE` or
`DROP USER` is issued after a statement that updates or deletes a bookkeeping
row; a statement that failed is followed by nothing but the rollback; and when
a statement failed the call returns an error and the committed tables are
those before the call. -/
theorem DeleteExpired_drops_first_and_aborts (o : Oracle) (p : Postgres) (now : Time)
    (s : State) :
    (callTrace s (DeleteExpired o p now s).2).Pairwise
      (fun a b => a.stmt.isMutation = true → b.stmt.isDrop = false) ∧
    (callTrace s (DeleteExpired o p now s).2).Pairwise
      (fun a b => a.err ≠ none → b.stmt = .rollback) ∧
    ((∃ ev ∈ callTrace s (DeleteExpired o p now s).2, ev.err ≠ none) →
      (∃ err, (DeleteExpired o p now s).1 = .error err) ∧
      (DeleteExpired o p now s).2.tables = s.tables) := by
  refine ⟨(DeleteExpired_trace_before o p now s).imp (fun h => before_no_drop_after_mutation _ _ h),
    (DeleteExpired_trace_before o p now s).imp (fun h => before_failure_last _ _ h), ?_⟩
  have hc := DeleteExpired_cases o p now s
  revert hc
  generalize DeleteExpired o p now s = r
  intro hc hfail
  unfold DeleteExpiredOutcome at hc
  rcases hc with ⟨herr, ht, -⟩ | ⟨groups, evs, -, hs, hall, -, -, htr⟩
  · exact ⟨herr, ht⟩
  · exfalso
    obtain ⟨ev, hev, hne⟩ := hfail
    rw [htr] at hev
    simp only [List.mem_append, List.mem_cons, List.mem_singleton, List.not_mem_nil,
      or_false] at hev
    rcases hev with ((rfl | rfl) | hev) | rfl
    · exact hne rfl
    · exact hne rfl
    · exact hne (hall ev hev)
    · exact hne rfl


/-! ## The grouping of `list` -/

theorem upsert_keeps (acc : List database) (ID : Int) (Name : String) (ExpiredAt : Option Time)
    (u : user) (g0 : database) (h0 : g0 ∈ acc) :
    ∃ g ∈ upsert acc ID Name ExpiredAt u, g.ID = g0.ID ∧ ∀ v ∈ g0.Users, v ∈ g.Users := by
  unfold upsert
  split
  · by_cases hid : g0.ID = ID
    · refine ⟨{ g0 with Users := g0.Users ++ [u] }, ?_, rfl, ?_⟩
      · exact List.mem_map.mpr ⟨g0, h0, by simp [hid]⟩
      · intro v hv
        exact List.mem_append.mpr (Or.inl hv)
    · exact ⟨g0, List.mem_map.mpr ⟨g0, h0, by simp [hid]⟩, rfl, fun v hv => hv⟩
  · exact ⟨g0, List.mem_append.mpr (Or.inl h0), rfl, fun v hv => hv⟩

theorem upsert_adds (acc : List database) (ID : Int) (Name : String) (ExpiredAt : Option Time)
    (u : user) : ∃ g ∈ upsert acc ID Name ExpiredAt u, g.ID = ID ∧ u ∈ g.Users := by
  unfold upsert
  split
  · rename_i h
    obtain ⟨g0, h0, hid⟩ := h
    refine ⟨{ g0 with Users := g0.Users ++ [u] }, ?_, hid, by simp⟩
    exact List.mem_map.mpr ⟨g0, h0, by simp [hid]⟩
  · exact ⟨⟨ID, Name, ExpiredAt, [u]⟩, by simp, rfl, by simp⟩

theorem upsert_origin (acc : List database) (ID : Int) (Name : String)
    (ExpiredAt : Option Time) (u : user) (g : database)
    (hg : g ∈ upsert acc ID Name ExpiredAt u) :
    ((∃ g0 ∈ acc, g0.ID = g.ID) ∨ g.ID = ID) ∧
    ∀ v ∈ g.Users, (∃ g0 ∈ acc, g0.ID = g.ID ∧ v ∈ g0.Users) ∨ (g.ID = ID ∧ v = u) := by
  unfold upsert at hg
  split at hg
  · obtain ⟨g0, h0, hmap⟩ := List.mem_map.mp hg
    by_cases hid : g0.ID = ID
    · rw [if_pos hid] at hmap
      subst hmap
      refine ⟨Or.inl ⟨g0, h0, rfl⟩, ?_⟩
      intro v hv
      rcases List.mem_append.mp hv with hv | hv
      · exact Or.inl ⟨g0, h0, rfl, hv⟩
      · exact Or.inr ⟨hid, List.mem_singleton.mp hv⟩
    · rw [if_neg hid] at hmap
      subst hmap
      exact ⟨Or.inl ⟨g0, h0, rfl⟩, fun v hv => Or.inl ⟨g0, h0, rfl, hv⟩⟩
  · rcases List.mem_append.mp hg with hg | hg
    · exact ⟨Or.inl ⟨g, hg, rfl⟩, fun v hv => Or.inl ⟨g, hg, rfl, hv⟩⟩
    · have hg2 := List.mem_singleton.mp hg
      subst hg2
      exact ⟨Or.inr rfl, fun v hv => Or.inr ⟨rfl, List.mem_singleton.mp hv⟩⟩

theorem scanRows_forward (rows : List JoinRow) :
    ∀ acc groups, scanRows rows acc = .ok groups →
      (∀ g0 ∈ acc, ∃ g ∈ groups, g.ID = g0.ID ∧ ∀ v ∈ g0.Users, v ∈ g.Users) ∧
      (∀ row ∈ rows, ∃ uid uname, row.uID = some uid ∧ row.uUsername = some uname ∧
        ∃ g ∈ groups, g.ID = row.dID ∧ (⟨uid, uname⟩ : user) ∈ g.Users) := by
  induction rows with
  | nil =>
    intro acc groups h
    simp only [scanRows, Except.ok.injEq] at h
    subst h
    exact ⟨fun g0 h0 => ⟨g0, h0, rfl, fun v hv => hv⟩, by simp⟩
  | cons r rows ih =>
    intro acc groups h
    unfold scanRows at h
    cases hu : r.uID with
    | none => rw [hu] at h; simp at h
    | some uid =>
      cases hn : r.uUsername with
      | none => rw [hu, hn] at h; simp at h
      | some uname =>
        rw [hu, hn] at h
        simp only at h
        obtain ⟨ih1, ih2⟩ := ih _ _ h
        constructor
        · intro g0 h0
          obtain ⟨g1, hg1, hid1, hus1⟩ := upsert_keeps acc r.dID r.dName r.dExpiredAt
            ⟨uid, uname⟩ g0 h0
          obtain ⟨g, hg, hid, hus⟩ := ih1 g1 hg1
          exact ⟨g, hg, by rw [hid, hid1], fun v hv => hus v (hus1 v hv)⟩
        · intro row hrow
          rcases List.mem_cons.mp hrow with hrow | hrow
          · subst hrow
            obtain ⟨g1, hg1, hid1, hu1⟩ := upsert_adds acc row.dID row.dName row.dExpiredAt
              ⟨uid, uname⟩
            obtain ⟨g, hg, hid, hus⟩ := ih1 g1 hg1
            exact ⟨uid, uname, hu, hn, g, hg, by rw [hid, hid1], hus _ hu1⟩
          · exact ih2 row hrow

theorem scanRows_backward (rows : List JoinRow) :
    ∀ acc groups, scanRows rows acc = .ok groups → ∀ g ∈ groups,
      ((∃ g0 ∈ acc, g0.ID = g.ID) ∨ (∃ row ∈ rows, row.dID = g.ID)) ∧
      ∀ v ∈ g.Users, (∃ g0 ∈ acc, g0.ID = g.ID ∧ v ∈ g0.Users) ∨
        (∃ row ∈ rows, row.dID = g.ID ∧ row.uID = some v.ID) := by
  induction rows with
  | nil =>
    intro acc groups h g hg
    simp only [scanRows, Except.ok.injEq] at h
    subst h
    exact ⟨Or.inl ⟨g, hg, rfl⟩, fun v hv => Or.inl ⟨g, hg, rfl, hv⟩⟩
  | cons r rows ih =>
    intro acc groups h g hg
    unfold scanRows at h
    cases hu : r.uID with
    | none => rw [hu] at h; simp at h
    | some uid =>
      cases hn : r.uUsername with
      | none => rw [hu, hn] at h; simp at h
      | some uname =>
        rw [hu, hn] at h
        simp only at h
        obtain ⟨ih1, ih2⟩ := ih _ _ h g hg
        constructor
        · rcases ih1 with ⟨g1, hg1, hid1⟩ | ⟨row, hrow, hid⟩
          · rcases (upsert_origin acc r.dID r.dName r.dExpiredAt ⟨uid, uname⟩ g1 hg1).1 with
              ⟨g0, h0, hid0⟩ | hid0
            · exact Or.inl ⟨g0, h0, by rw [hid0, hid1]⟩
            · exact Or.inr ⟨r, List.mem_cons_self _ _, by rw [← hid0, hid1]⟩
          · exact Or.inr ⟨row, List.mem_cons_of_mem _ hrow, hid⟩
        · intro v hv
          rcases ih2 v hv with ⟨g1, hg1, hid1, hv1⟩ | ⟨row, hrow, hid, hrv⟩
          · rcases (upsert_origin acc r.dID r.dName r.dExpiredAt ⟨uid, uname⟩ g1 hg1).2 v hv1
              with ⟨g0, h0, hid0, hv0⟩ | ⟨hid0, hveq⟩
            · exact Or.inl ⟨g0, h0, by rw [hid0, hid1], hv0⟩
            · refine Or.inr ⟨r, List.mem_cons_self _ _, by rw [← hid0, hid1], ?_⟩
              rw [hu, hveq]
          · exact Or.inr ⟨row, List.mem_cons_of_mem _ hrow, hid, hrv⟩


theorem mem_selectExpired (t : Tables) (now : Time) (row : JoinRow) :
    row ∈ t.selectExpired now ↔
      ∃ d ∈ t.databases, isExpired now d = true ∧ row ∈ joinUsers t.users d := by
  unfold Tables.selectExpired
  simp only [List.mem_flatten, List.mem_map, List.mem_filter]
  constructor
  · rintro ⟨l, ⟨d, ⟨hd, he⟩, rfl⟩, hrow⟩
    exact ⟨d, hd, he, hrow⟩
  · rintro ⟨d, hd, he, hrow⟩
    exact ⟨_, ⟨d, ⟨hd, he⟩, rfl⟩, hrow⟩

theorem joinUsers_nonempty (users : List UserRecord) (d : DatabaseRecord) :
    ∃ row ∈ joinUsers users d, row.dID = d.id := by
  unfold joinUsers
  cases h : users.filter (fun u => decide (u.databaseId = d.id)) with
  | nil => exact ⟨_, List.mem_singleton.mpr rfl, rfl⟩
  | cons u us => exact ⟨_, List.mem_map.mpr ⟨u, List.mem_cons_self _ _, rfl⟩, rfl⟩

theorem joinUsers_of_user (users : List UserRecord) (d : DatabaseRecord) (u : UserRecord)
    (hu : u ∈ users) (hd : u.databaseId = d.id) :
    (⟨d.id, d.name, d.expiredAt, some u.id, some u.username⟩ : JoinRow) ∈ joinUsers users d := by
  have hmem : u ∈ users.filter (fun u => decide (u.databaseId = d.id)) :=
    List.mem_filter.mpr ⟨hu, by simp [hd]⟩
  unfold joinUsers
  cases h : users.filter (fun u => decide (u.databaseId = d.id)) with
  | nil => rw [h] at hmem; simp at hmem
  | cons v vs =>
    rw [h] at hmem
    exact List.mem_map.mpr ⟨u, hmem, rfl⟩

theorem joinUsers_origin (users : List UserRecord) (d : DatabaseRecord) (row : JoinRow)
    (hrow : row ∈ joinUsers users d) :
    row.dID = d.id ∧
    ∀ uid, row.uID = some uid → ∃ u ∈ users, u.databaseId = d.id ∧ u.id = uid := by
  unfold joinUsers at hrow
  cases h : users.filter (fun u => decide (u.databaseId = d.id)) with
  | nil =>
    rw [h] at hrow
    have hr := List.mem_singleton.mp hrow
    subst hr
    exact ⟨rfl, fun uid huid => by simp at huid⟩
  | cons v vs =>
    rw [h] at hrow
    obtain ⟨u, hu, hr⟩ := List.mem_map.mp hrow
    subst hr
    rw [← h] at hu
    obtain ⟨hu1, hu2⟩ := List.mem_filter.mp hu
    refine ⟨rfl, fun uid huid => ⟨u, hu1, by simpa using hu2, ?_⟩⟩
    simpa using huid

theorem list_ok (o : Oracle) (now : Time) (s : State) (groups : List database)
    (h : (list o now true s).1 = .ok groups) :
    scanRows (s.tables.selectExpired now) [] = .ok groups := by
  unfold list at h
  simp only [if_true] at h
  cases ho : o s.trace (.selectExpired now) with
  | some e => rw [ho] at h; simp at h
  | none => rw [ho] at h; exact h

/-- The groups of a successful sweep cover every expired database and every
user of one. -/
theorem groups_cover (t : Tables) (now : Time) (groups : List database)
    (h : scanRows (t.selectExpired now) [] = .ok groups) (d : DatabaseRecord)
    (hd : d ∈ t.databases) (he : isExpired now d = true) :
    d.id ∈ groups.map (fun g => g.ID) ∧
    ∀ u ∈ t.users, u.databaseId = d.id → u.id ∈ userIDs groups := by
  obtain ⟨-, hrows⟩ := scanRows_forward _ _ _ h
  constructor
  · obtain ⟨row, hrow, hid⟩ := joinUsers_nonempty t.users d
    obtain ⟨uid, uname, -, -, g, hg, hgid, -⟩ :=
      hrows row ((mem_selectExpired t now row).mpr ⟨d, hd, he, hrow⟩)
    exact List.mem_map.mpr ⟨g, hg, by rw [hgid, hid]⟩
  · intro u hu hud
    have hrow := joinUsers_of_user t.users d u hu hud
    obtain ⟨uid, uname, huid, huname, g, hg, -, hmem⟩ :=
      hrows _ ((mem_selectExpired t now _).mpr ⟨d, hd, he, hrow⟩)
    simp only [Option.some.injEq] at huid huname
    subst huid
    subst huname
    unfold userIDs
    exact List.mem_flatten.mpr ⟨_, List.mem_map.mpr ⟨g, hg, rfl⟩,
      List.mem_map.mpr ⟨_, hmem, rfl⟩⟩


/-! ## The sweep -/

theorem DeleteExpired_ok (o : Oracle) (p : Postgres) (now : Time) (s : State) (dbs : List DB)
    (hok : (DeleteExpired o p now s).1 = .ok dbs) :
    ∃ groups, scanRows (s.tables.selectExpired now) [] = .ok groups ∧
      dbs = credentials groups ∧
      (DeleteExpired o p now s).2.tables = reclaim p.softDelete now groups s.tables := by
  have hc := DeleteExpired_cases o p now s
  revert hok hc
  generalize DeleteExpired o p now s = r
  intro hok hc
  unfold DeleteExpiredOutcome at hc
  rcases hc with ⟨⟨err, herr⟩, -⟩ | ⟨groups, evs, hscan, -, -, hr, ht, -⟩
  · rw [herr] at hok; cases hok
  · rw [hr] at hok
    cases hok
    exact ⟨groups, hscan, rfl, ht⟩

theorem soft_deleted_not_selected (now now2 : Time) (groups groups2 : List database)
    (t : Tables)
    (h2 : scanRows ((reclaim true now groups t).selectExpired now2) [] = .ok groups2)
    (g : database) (hg : g ∈ groups2) :
    g.ID ∉ groups.map (fun g => g.ID) ∧
    ∀ v ∈ g.Users, ∃ u0 ∈ t.users, u0.id = v.ID ∧ u0.databaseId = g.ID := by
  obtain ⟨hdb, husers⟩ := scanRows_backward _ _ _ h2 g hg
  have hsel : ∀ row ∈ (reclaim true now groups t).selectExpired now2,
      row.dID ∉ groups.map (fun g => g.ID) ∧
      ∀ uid, row.uID = some uid → ∃ u0 ∈ t.users, u0.id = uid ∧ u0.databaseId = row.dID := by
    intro row hrow
    obtain ⟨d1, hd1, he1, hj⟩ := (mem_selectExpired _ _ _).mp hrow
    obtain ⟨hid, hu⟩ := joinUsers_origin _ _ _ hj
    constructor
    · intro hmem
      simp only [reclaim, reclaimDatabases, if_true] at hd1
      obtain ⟨d0, -, hd0⟩ := List.mem_map.mp hd1
      by_cases hin : d0.id ∈ groups.map (fun g => g.ID)
      · rw [if_pos hin] at hd0
        subst hd0
        simp [isExpired] at he1
      · rw [if_neg hin] at hd0
        subst hd0
        exact hin (by rw [← hid]; exact hmem)
    · intro uid huid
      obtain ⟨u1, hu1, hdb1, hid1⟩ := hu uid huid
      simp only [reclaim, reclaimUsers, if_true] at hu1
      obtain ⟨u0, hu0, hmap⟩ := List.mem_map.mp hu1
      refine ⟨u0, hu0, ?_, ?_⟩
      · rw [← hid1, ← hmap]
        split <;> rfl
      · rw [hid, ← hdb1, ← hmap]
        split <;> rfl
  constructor
  · rcases hdb with ⟨g0, h0, -⟩ | ⟨row, hrow, hid⟩
    · simp at h0
    · rw [← hid]
      exact (hsel row hrow).1
  · intro v hv
    rcases husers v hv with ⟨g0, h0, -⟩ | ⟨row, hrow, hid, huid⟩
    · simp at h0
    · obtain ⟨u0, hu0, h1, h2⟩ := (hsel row hrow).2 _ huid
      exact ⟨u0, hu0, h1, by rw [h2, hid]⟩


/-- C5, the code at a failing input: after a `Create` whose `CREATE USER`
failed, the store holds the database "acme" without users. Once it has
expired, a `DeleteExpired` on a backend that executes every statement still
returns an error (from `rows.Scan` on the NULL user columns of the left join),
every statement it issued succeeded, and the record is not reclaimed. -/
theorem DeleteExpired_userless_database_not_reclaimed :
    afterFailedUser.tables = ⟨[⟨1, "acme", some 130, 100, none⟩], []⟩ ∧
    isExpired 200 ⟨1, "acme", some 130, 100, none⟩ = true ∧
    (DeleteExpired allOk ⟨false⟩ 200 afterFailedUser).1 =
      .error (.wrap (.wrap (.wrap
        (.other "sql: Scan error on column index 3: converting NULL to int is unsupported")
        "cannot scan database") "cannot get list of expired DBs") "cannot delete expired DBs") ∧
    (∀ ev ∈ callTrace afterFailedUser (DeleteExpired allOk ⟨false⟩ 200 afterFailedUser).2,
      ev.err = none) ∧
    (DeleteExpired allOk ⟨false⟩ 200 afterFailedUser).2.tables =
      ⟨[⟨1, "acme", some 130, 100, none⟩], []⟩ := by
  exact ⟨by decide, by decide, by decide, by decide, by decide⟩

/-- C6: after a successful `DeleteExpired`, for every database row that was
expired and not deleted at the call's `now`, and every user row it owns: with
soft-delete the same rows are present with `deleted_at = now`, and no later
`list` (the selection of a subsequent `DeleteExpired`, at any time) returns a
group with the id of that database or a user with the id of one of those
users; without soft-delete no row with the id of that database or of one of
those users is left. The ids of `users` are distinct (primary key). -/
theorem DeleteExpired_soft_delete_toggle (o : Oracle) (p : Postgres) (now : Time) (s : State)
    (dbs : List DB) (hok : (DeleteExpired o p now s).1 = .ok dbs)
    (hpk : s.tables.users.Pairwise (fun a b => a.id ≠ b.id))
    (d : DatabaseRecord) (hd : d ∈ s.tables.databases) (he : isExpired now d = true) :
    (p.softDelete = true →
      { d with deletedAt := some now } ∈ (DeleteExpired o p now s).2.tables.databases ∧
      (∀ u ∈ s.tables.users, u.databaseId = d.id →
        { u with deletedAt := some now } ∈ (DeleteExpired o p now s).2.tables.users) ∧
      (∀ (o2 : Oracle) (now2 : Time) (groups2 : List database),
        (list o2 now2 true (DeleteExpired o p now s).2).1 = .ok groups2 →
        ∀ g ∈ groups2, g.ID ≠ d.id ∧
          ∀ u ∈ s.tables.users, u.databaseId = d.id → ∀ v ∈ g.Users, v.ID ≠ u.id)) ∧
    (p.softDelete = false →
      (∀ row ∈ (DeleteExpired o p now s).2.tables.databases, row.id ≠ d.id) ∧
      (∀ u ∈ s.tables.users, u.databaseId = d.id →
        ∀ row ∈ (DeleteExpired o p now s).2.tables.users, row.id ≠ u.id)) := by
  obtain ⟨groups, hscan, -, ht⟩ := DeleteExpired_ok o p now s dbs hok
  obtain ⟨hcd, hcu⟩ := groups_cover s.tables now groups hscan d hd he
  constructor
  · intro hsoft
    rw [hsoft] at ht
    refine ⟨?_, ?_, ?_⟩
    · rw [ht]
      simp only [reclaim, reclaimDatabases, if_true]
      exact List.mem_map.mpr ⟨d, hd, by rw [if_pos hcd]⟩
    · intro u hu hud
      rw [ht]
      simp only [reclaim, reclaimUsers, if_true]
      exact List.mem_map.mpr ⟨u, hu, by rw [if_pos (hcu u hu hud)]⟩
    · intro o2 now2 groups2 h2 g hg
      have h3 := list_ok o2 now2 _ groups2 h2
      rw [ht] at h3
      obtain ⟨hnot, hus⟩ := soft_deleted_not_selected now now2 groups groups2 s.tables h3 g hg
      have hne : g.ID ≠ d.id := fun h => hnot (by rw [h]; exact hcd)
      refine ⟨hne, ?_⟩
      intro u hu hud v hv hvid
      obtain ⟨u0, hu0, hid0, hdb0⟩ := hus v hv
      have heq : u0 = u := by
        by_contra hneq
        exact hpk.forall (fun _ _ h => Ne.symm h) hu0 hu hneq (by rw [hid0, hvid])
      rw [heq] at hdb0
      exact hne (by rw [← hdb0, hud])
  · intro hhard
    rw [hhard] at ht
    constructor
    · intro row hrow hid
      rw [ht] at hrow
      simp only [reclaim, reclaimDatabases, Bool.false_eq_true, if_false,
        List.mem_filter, decide_eq_true_eq] at hrow
      exact hrow.2 (by rw [hid]; exact hcd)
    · intro u hu hud row hrow hid
      rw [ht] at hrow
      simp only [reclaim, reclaimUsers, Bool.false_eq_true, if_false,
        List.mem_filter, decide_eq_true_eq] at hrow
      exact hrow.2 (by rw [hid]; exact hcu u hu hud)

theorem DeleteExpired_soft_delete_toggle_witness :
    ((⟨1, "acme", some 130, 100, some 200⟩ : DatabaseRecord) ∈
      (DeleteExpired allOk ⟨true⟩ 200 storeExpired).2.tables.databases) ∧
    (∀ row ∈ (DeleteExpired allOk ⟨false⟩ 200 storeExpired).2.tables.databases, row.id ≠ 1) :=
  ⟨((DeleteExpired_soft_delete_toggle allOk ⟨true⟩ 200 storeExpired
      [⟨"acme", "bob", "", some 130⟩] (by decide) (by decide)
      ⟨1, "acme", some 130, 100, none⟩ (by decide) (by decide)).1 rfl).1,
   ((DeleteExpired_soft_delete_toggle allOk ⟨false⟩ 200 storeExpired
      [⟨"acme", "bob", "", some 130⟩] (by decide) (by decide)
      ⟨1, "acme", some 130, 100, none⟩ (by decide) (by decide)).2 rfl).1⟩


/-! ## Lifecycle -/

/-- C11 as stated fails: with both connections open and a root connection
whose `Close` fails, `Disconnect` returns that failure, and the only operation
it performed is the close of the root connection: the close of the management
connection is not attempted. -/
theorem Disconnect_root_failure_skips_management :
    (Disconnect (failOn (.close "") (.other "broken pipe")) bothOpen emptyState).1 =
      some (.wrap (.other "broken pipe") "cannot close connection with root DB") ∧
    callTrace emptyState
        (Disconnect (failOn (.close "") (.other "broken pipe")) bothOpen emptyState).2 =
      [⟨.close "", some (.other "broken pipe")⟩] ∧
    (∀ ev ∈ callTrace emptyState
        (Disconnect (failOn (.close "") (.other "broken pipe")) bothOpen emptyState).2,
      ev.stmt ≠ .close "librarian") ∧
    callTrace emptyState (Disconnect allOk bothOpen emptyState).2 =
      [⟨.close "", none⟩, ⟨.close "librarian", none⟩] := by
  exact ⟨by decide, by decide, by decide, by decide⟩

/-- C11, amended: with both connections open, `Disconnect` closes the root
connection first. When that close fails, its error is returned at once
(wrapped) and the close of the management connection is not attempted. When it
succeeds, the management connection is closed next and the result is that of
this close (wrapped when it is an error). So the error returned is the first
close failure, and there is no error exactly when both closes succeed. -/
theorem Disconnect_closes_in_order (o : Oracle) (p : Connections) (s : State) (r m : SqlDB)
    (hr : p.rootDB = some r) (hm : p.managementDB = some m) :
    (∀ e, o s.trace (.close r.database) = some e →
      (Disconnect o p s).1 = some (e.wrap "cannot close connection with root DB") ∧
      callTrace s (Disconnect o p s).2 = [⟨.close r.database, some e⟩]) ∧
    (o s.trace (.close r.database) = none →
      callTrace s (Disconnect o p s).2 =
        [⟨.close r.database, none⟩,
          ⟨.close m.database,
            o (s.trace ++ [⟨.close r.database, none⟩]) (.close m.database)⟩] ∧
      (Disconnect o p s).1 =
        (o (s.trace ++ [⟨.close r.database, none⟩]) (.close m.database)).map
          (fun e => e.wrap "cannot close connection with management DB")) ∧
    ((Disconnect o p s).1 = none ↔
      o s.trace (.close r.database) = none ∧
      o (s.trace ++ [⟨.close r.database, none⟩]) (.close m.database) = none) := by
  unfold Disconnect disconnectManagement connExec
  rw [hr, hm]
  dsimp only
  cases h1 : o s.trace (.close r.database) with
  | some e =>
    dsimp only
    refine ⟨?_, fun h => (by cases h), (by simp)⟩
    intro e2 he
    cases he
    exact ⟨rfl, callTrace_of_trace _ _ _ rfl⟩
  | none =>
    dsimp only [State.log]
    refine ⟨fun e he => (by cases he), fun _ => ?_, ?_⟩
    · cases h2 : o (s.trace ++ [⟨.close r.database, none⟩]) (.close m.database) with
      | some e => exact ⟨callTrace_of_trace _ _ _ (by simp), rfl⟩
      | none => exact ⟨callTrace_of_trace _ _ _ (by simp), rfl⟩
    · cases h2 : o (s.trace ++ [⟨.close r.database, none⟩]) (.close m.database) with
      | some e => simp
      | none => simp

theorem Disconnect_closes_in_order_witness :
    (Disconnect (failOn (.close "librarian") (.other "broken pipe")) bothOpen emptyState).1 =
      some (.wrap (.other "broken pipe") "cannot close connection with management DB") ∧
    (Disconnect allOk bothOpen emptyState).1 = none :=
  ⟨((Disconnect_closes_in_order (failOn (.close "librarian") (.other "broken pipe")) bothOpen
      emptyState ⟨""⟩ ⟨"librarian"⟩ rfl rfl).2.1 (by decide)).2,
   (Disconnect_closes_in_order allOk bothOpen emptyState ⟨""⟩ ⟨"librarian"⟩ rfl rfl).2.2.mpr
     ⟨rfl, rfl⟩⟩

/-! ## The credential returned by `Create` -/

/-- C13: the credential a successful `Create` returns carries the explicit
database name when it is not empty and the output of the database-name
generator otherwise; likewise the username; the explicit password whenever one
was supplied (the empty string included) and the output of the password
generator otherwise. Without options the TTL is 10 minutes, the names and the
password are those of the default generators, and the expiry is `now` plus 10
minutes. -/
theorem Create_resolves_credential (o : Oracle) (u : UUIDs) (now : Time)
    (opts : List CreaterOption) (s : State) (db : DB)
    (hok : (Create o u now opts s).1 = .ok db) :
    ((NewCreaterOptions u opts).Database ≠ "" →
      db.Database = (NewCreaterOptions u opts).Database) ∧
    ((NewCreaterOptions u opts).Database = "" →
      db.Database = (NewCreaterOptions u opts).DBNameGenerator ()) ∧
    ((NewCreaterOptions u opts).Username ≠ "" →
      db.Username = (NewCreaterOptions u opts).Username) ∧
    ((NewCreaterOptions u opts).Username = "" →
      db.Username = (NewCreaterOptions u opts).UsernameGenerator ()) ∧
    (∀ password, (NewCreaterOptions u opts).Password = some password →
      db.Password = password) ∧
    ((NewCreaterOptions u opts).Password = none →
      db.Password = (NewCreaterOptions u opts).PasswordGenerator ()) ∧
    (NewCreaterOptions u []).TTL = 10 * Minute ∧
    (opts = [] →
      db = ⟨"db_" ++ u.dbName, "user_" ++ u.username, u.password, some (now + 10 * Minute)⟩) := by
  obtain ⟨hdb, -, -, -⟩ := Create_ok o u now opts s db hok
  refine ⟨?_, ?_, ?_, ?_, ?_, ?_, rfl, ?_⟩
  · intro h
    rw [hdb]
    simp [resolveDatabase, h]
  · intro h
    rw [hdb]
    simp [resolveDatabase, h]
  · intro h
    rw [hdb]
    simp [resolveUsername, h]
  · intro h
    rw [hdb]
    simp [resolveUsername, h]
  · intro password h
    rw [hdb]
    simp [resolvePassword, h]
  · intro h
    rw [hdb]
    simp [resolvePassword, h]
  · intro h
    subst h
    rw [hdb]
    simp [NewCreaterOptions, resolveDatabase, resolveUsername, resolvePassword,
      resolveExpiredAt, GenerateDBName, GenerateUsername, GeneratePassword, Minute]

theorem Create_resolves_credential_witness :
    (Create allOk someUUIDs 100 [WithDatabase "acme", WithPassword ""] emptyState).1 =
      .ok ⟨"acme", "user_u", "", some (100 + 10 * Minute)⟩ ∧
    (⟨"acme", "user_u", "", some (100 + 10 * Minute)⟩ : DB).Password = "" ∧
    (⟨"acme", "user_u", "", some (100 + 10 * Minute)⟩ : DB).Database = "acme" :=
  ⟨by decide,
   (Create_resolves_credential allOk someUUIDs 100 [WithDatabase "acme", WithPassword ""]
      emptyState ⟨"acme", "user_u", "", some (100 + 10 * Minute)⟩ (by decide)).2.2.2.2.1 ""
      (by decide),
   (Create_resolves_credential allOk someUUIDs 100 [WithDatabase "acme", WithPassword ""]
      emptyState ⟨"acme", "user_u", "", some (100 + 10 * Minute)⟩ (by decide)).1 (by decide)⟩


theorem Cause_wrap (e : Err) (msg : String) : Cause (e.wrap msg) = Cause e := rfl

theorem isPqCode_iff (code : String) (e : Err) : isPqCode code e = true ↔ Cause e = .pq code := by
  unfold isPqCode
  cases h : Cause e <;> simp

theorem tolerated_iff (code : String) (err : Option Err) :
    tolerated code err = true ↔ err = none ∨ ∃ e, err = some e ∧ Cause e = .pq code := by
  cases err with
  | none => simp [tolerated]
  | some e => simp [tolerated, isPqCode_iff]

theorem createManagementTables_returns (o : Oracle) (s : State) :
    ∃ err, (createManagementTables o s).1 = .returned err := by
  unfold createManagementTables Transaction
  rcases BeginTx o s with ⟨_ | e, s1⟩
  · dsimp only
    unfold createTablesFn
    rcases txExec o .createTableDatabases (fun t => .ok t) s1 with ⟨_ | e1, s2⟩
    · dsimp only
      rcases txExec o .createTableUsers (fun t => .ok t) s2 with ⟨_ | e2, s3⟩
      · exact ⟨_, rfl⟩
      · exact ⟨_, rfl⟩
    · exact ⟨_, rfl⟩
  · exact ⟨_, rfl⟩


theorem OnlyDuplicates_append (o : Oracle) (tr evs0 : List Event) (h : OnlyDuplicates o tr) :
    OnlyDuplicates o (tr ++ evs0) := by
  intro evs st e he
  rw [List.append_assoc] at he
  exact h _ st e he

theorem OnlyDuplicates_here (o : Oracle) (tr : List Event) (h : OnlyDuplicates o tr)
    (st : Stmt) (e : Err) (he : o tr st = some e) : isDuplicate st e :=
  h [] st e (by rw [List.append_nil]; exact he)

theorem connectManagementDB_ok (o : Oracle) (p : Connections) (s : State)
    (h : OnlyDuplicates o s.trace) :
    ∃ s2, connectManagementDB o p s =
        (none, { p with managementDB := some ⟨p.managementDatabase⟩ }, s2) ∧
      s2.trace = s.trace ++
        [⟨.open p.managementDatabase, none⟩, ⟨.ping p.managementDatabase, none⟩] := by
  unfold connectManagementDB connect connExec
  cases h1 : o s.trace (.open p.managementDatabase) with
  | some e =>
    have hd := OnlyDuplicates_here o _ h _ e h1
    simp [isDuplicate] at hd
  | none =>
    dsimp only
    cases h2 : o (s.log (.open p.managementDatabase) none).trace
        (.ping p.managementDatabase) with
    | some e =>
      have hd := h [⟨.open p.managementDatabase, none⟩] _ e h2
      simp [isDuplicate] at hd
    | none =>
      exact ⟨_, rfl, by simp [State.log]⟩

theorem createManagementTables_tolerated (o : Oracle) (s : State)
    (h : OnlyDuplicates o s.trace) :
    ∃ err, (createManagementTables o s).1 = .returned err ∧ tolerated "42P07" err = true := by
  unfold createManagementTables Transaction BeginTx
  cases h1 : o s.trace .beginTx with
  | some e =>
    have hd := OnlyDuplicates_here o _ h _ e h1
    simp [isDuplicate] at hd
  | none =>
    simp only [createTablesFn, txExec, State.log]
    cases h2 : o (s.trace ++ [⟨.beginTx, none⟩]) .createTableDatabases with
    | some e =>
      have hd := h [⟨.beginTx, none⟩] _ e h2
      have hc : Cause e = .pq "42P07" := by
        rcases hd with ⟨name, hn, -⟩ | ⟨-, hc⟩
        · cases hn
        · exact hc
      exact ⟨_, rfl, by simp [tolerated, isPqCode_iff, Cause_wrap, hc]⟩
    | none =>
      dsimp only
      cases h3 : o (s.trace ++ [⟨.beginTx, none⟩] ++ [⟨.createTableDatabases, none⟩])
          .createTableUsers with
      | some e =>
        have hd := h [⟨.beginTx, none⟩, ⟨.createTableDatabases, none⟩] _ e (by simpa using h3)
        have hc : Cause e = .pq "42P07" := by
          rcases hd with ⟨name, hn, -⟩ | ⟨-, hc⟩
          · cases hn
          · exact hc
        exact ⟨_, rfl, by simp [tolerated, isPqCode_iff, Cause_wrap, hc]⟩
      | none =>
        simp only [Commit, State.log]
        cases h4 : o (s.trace ++ [⟨.beginTx, none⟩] ++ [⟨.createTableDatabases, none⟩] ++
            [⟨.createTableUsers, none⟩]) .commit with
        | some e =>
          have hd := h [⟨.beginTx, none⟩, ⟨.createTableDatabases, none⟩,
            ⟨.createTableUsers, none⟩] _ e (by simpa using h4)
          simp [isDuplicate] at hd
        | none => exact ⟨_, rfl, rfl⟩

theorem Init_ok_of_duplicates (o : Oracle) (p : Connections) (s : State)
    (h : OnlyDuplicates o s.trace) : (Init o p s).1 = .returned none := by
  have h1 : tolerated "42P04" (createManagementDB o p s).1 = true ∧
      ∃ evs0, (createManagementDB o p s).2.trace = s.trace ++ evs0 := by
    unfold createManagementDB createDatabase rootExec
    simp only [wrapErr_eq, State.log]
    refine ⟨?_, _, rfl⟩
    cases ho : o s.trace (.createDatabase p.managementDatabase) with
    | none => rfl
    | some e =>
      have hd := OnlyDuplicates_here o _ h _ e ho
      have hc : Cause e = .pq "42P04" := by
        rcases hd with ⟨name, -, hc⟩ | ⟨hn | hn, -⟩
        · exact hc
        · cases hn
        · cases hn
      simp [tolerated, isPqCode_iff, Cause_wrap, hc]
  obtain ⟨htol, evs0, htr⟩ := h1
  unfold Init
  rcases hr1 : createManagementDB o p s with ⟨err1, s1⟩
  rw [hr1] at htol htr
  simp only at htol htr ⊢
  rw [if_pos htol]
  have hs1 : OnlyDuplicates o s1.trace := by
    rw [htr]
    exact OnlyDuplicates_append o _ _ h
  obtain ⟨s2, hconn, htr2⟩ := connectManagementDB_ok o p s1 hs1
  rw [hconn]
  dsimp only
  have hs2 : OnlyDuplicates o s2.trace := by
    rw [htr2]
    exact OnlyDuplicates_append o _ _ hs1
  obtain ⟨err3, hr3, htol3⟩ := createManagementTables_tolerated o s2 hs2
  rcases hr : createManagementTables o s2 with ⟨r3, s3⟩
  rw [hr] at hr3
  simp only at hr3
  subst hr3
  dsimp only
  rw [if_pos htol3]


/-- C12: `Init` returns no error exactly when creating the management database
succeeded or failed with cause `42P04`, then connecting to it succeeded, then
creating the tables succeeded or failed with cause `42P07`. It always returns;
a failure of the first step with another cause, a failure to connect, and a
failure of the last step with another cause are returned, wrapped. When an
`Init` has succeeded and from then on the backend refuses statements only for
the duplicate condition of what they create, a second `Init` succeeds too. -/
theorem Init_succeeds_iff (o : Oracle) (p : Connections) (s : State) :
    (((Init o p s).1 = .returned none ↔
        ((createManagementDB o p s).1 = none ∨
          ∃ e, (createManagementDB o p s).1 = some e ∧ Cause e = .pq "42P04") ∧
        (connectManagementDB o p (createManagementDB o p s).2).1 = none ∧
        ((createManagementTables o
            (connectManagementDB o p (createManagementDB o p s).2).2.2).1 = .returned none ∨
          ∃ e, (createManagementTables o
              (connectManagementDB o p (createManagementDB o p s).2).2.2).1 =
                .returned (some e) ∧ Cause e = .pq "42P07")) ∧
      (∃ err, (Init o p s).1 = .returned err) ∧
      (∀ e, (createManagementDB o p s).1 = some e → Cause e ≠ .pq "42P04" →
        (Init o p s).1 = .returned (some (e.wrap "cannot create management database"))) ∧
      (tolerated "42P04" (createManagementDB o p s).1 = true →
        ∀ e, (connectManagementDB o p (createManagementDB o p s).2).1 = some e →
        (Init o p s).1 = .returned (some (e.wrap "cannot connect to management DB"))) ∧
      (tolerated "42P04" (createManagementDB o p s).1 = true →
        (connectManagementDB o p (createManagementDB o p s).2).1 = none →
        ∀ e, (createManagementTables o
            (connectManagementDB o p (createManagementDB o p s).2).2.2).1 =
              .returned (some e) → Cause e ≠ .pq "42P07" →
        (Init o p s).1 = .returned (some (e.wrap "cannot create management tables")))) ∧
    ((Init o p s).1 = .returned none →
      OnlyDuplicates o (Init o p s).2.2.trace →
      (Init o (Init o p s).2.1 (Init o p s).2.2).1 = .returned none) := by
  refine ⟨?_, fun _ hd => Init_ok_of_duplicates o _ _ hd⟩
  unfold Init
  generalize createManagementDB o p s = r1
  obtain ⟨err1, s1⟩ := r1
  dsimp only
  by_cases ht : tolerated "42P04" err1 = true
  · rw [if_pos ht]
    have ht1 := (tolerated_iff "42P04" err1).mp ht
    generalize connectManagementDB o p s1 = r2
    obtain ⟨err2, p2, s2⟩ := r2
    cases err2 with
    | some e2 =>
      dsimp only
      refine ⟨by simp, ⟨_, rfl⟩, ?_, ?_, by simp⟩
      · intro e he hne
        rcases ht1 with h | ⟨e1, h, hc⟩
        · rw [h] at he; cases he
        · rw [h] at he; cases he; exact absurd hc hne
      · intro _ e he
        cases he
        rfl
    | none =>
      dsimp only
      obtain ⟨err3, h3⟩ := createManagementTables_returns o s2
      revert h3
      generalize createManagementTables o s2 = r3
      obtain ⟨res3, s3⟩ := r3
      intro h3
      simp only at h3
      subst h3
      dsimp only
      by_cases ht3 : tolerated "42P07" err3 = true
      · rw [if_pos ht3]
        have ht3b := (tolerated_iff "42P07" err3).mp ht3
        refine ⟨?_, ⟨_, rfl⟩, ?_, by simp, ?_⟩
        · refine ⟨fun _ => ⟨ht1, rfl, ?_⟩, fun _ => rfl⟩
          rcases ht3b with h | ⟨e, h, hc⟩
          · exact Or.inl (by rw [h])
          · exact Or.inr ⟨e, by rw [h], hc⟩
        · intro e he hne
          rcases ht1 with h | ⟨e1, h, hc⟩
          · rw [h] at he; cases he
          · rw [h] at he; cases he; exact absurd hc hne
        · intro _ _ e he hne
          simp only [FnResult.returned.injEq] at he
          rcases ht3b with h | ⟨e3, h, hc⟩
          · rw [h] at he; cases he
          · rw [h] at he; cases he; exact absurd hc hne
      · rw [if_neg ht3]
        have hn3 : ¬ (err3 = none ∨ ∃ e, err3 = some e ∧ Cause e = .pq "42P07") :=
          fun h => ht3 ((tolerated_iff "42P07" err3).mpr h)
        cases err3 with
        | none => exact absurd (Or.inl rfl) hn3
        | some e3 =>
          refine ⟨?_, ⟨_, rfl⟩, ?_, by simp, ?_⟩
          · simp only [Option.map, FnResult.returned.injEq, reduceCtorEq, false_iff, not_and]
            intro _ _ h
            rcases h with h | ⟨e, h, hc⟩
            · cases h
            · simp only [FnResult.returned.injEq, Option.some.injEq] at h
              exact hn3 (Or.inr ⟨e, by rw [h], hc⟩)
          · intro e he hne
            rcases ht1 with h | ⟨e1, h, hc⟩
            · rw [h] at he; cases he
            · rw [h] at he; cases he; exact absurd hc hne
          · intro _ _ e he _
            simp only [FnResult.returned.injEq, Option.some.injEq] at he
            subst he
            rfl
  · rw [if_neg ht]
    have hn1 : ¬ (err1 = none ∨ ∃ e, err1 = some e ∧ Cause e = .pq "42P04") :=
      fun h => ht ((tolerated_iff "42P04" err1).mpr h)
    cases err1 with
    | none => exact absurd (Or.inl rfl) hn1
    | some e1 =>
      refine ⟨?_, ⟨_, rfl⟩, ?_, ?_, ?_⟩
      · simp only [Option.map, FnResult.returned.injEq, reduceCtorEq, false_iff, not_and]
        intro h
        rcases h with h | h
        · exact absurd h (by simp)
        · exact absurd (hn1 (Or.inr h)) (by simp)
      · intro e he _
        cases he
        rfl
      · intro h
        exact absurd h ht
      · intro h
        exact absurd h ht


theorem existsAfter_onlyDuplicates (tr : List Event) : OnlyDuplicates existsAfter tr := by
  intro evs st e he
  unfold existsAfter at he
  cases st with
  | createDatabase name =>
    dsimp only at he
    split at he
    · cases he
      exact Or.inl ⟨name, rfl, rfl⟩
    · cases he
  | createTableDatabases =>
    dsimp only at he
    split at he
    · cases he
      exact Or.inr ⟨Or.inl rfl, rfl⟩
    · cases he
  | createTableUsers =>
    dsimp only at he
    split at he
    · cases he
      exact Or.inr ⟨Or.inr rfl, rfl⟩
    · cases he
  | _ => cases he

theorem Init_succeeds_iff_witness :
    (Init existsAfter rootOnly emptyState).1 = .returned none ∧
    (Init existsAfter (Init existsAfter rootOnly emptyState).2.1
      (Init existsAfter rootOnly emptyState).2.2).1 = .returned none ∧
    (⟨.createDatabase "librarian", some (.pq "42P04")⟩ : Event) ∈
      (Init existsAfter (Init existsAfter rootOnly emptyState).2.1
        (Init existsAfter rootOnly emptyState).2.2).2.2.trace ∧
    (⟨.createTableDatabases, some (.pq "42P07")⟩ : Event) ∈
      (Init existsAfter (Init existsAfter rootOnly emptyState).2.1
        (Init existsAfter rootOnly emptyState).2.2).2.2.trace :=
  ⟨by decide,
   (Init_succeeds_iff existsAfter rootOnly emptyState).2 (by decide)
     (existsAfter_onlyDuplicates _),
   by decide, by decide⟩


/-! ## The result of `List` -/

theorem credentials_cons (g : database) (gs : List database) :
    credentials (g :: gs) =
      g.Users.map (fun user => (⟨g.Name, user.Username, "", g.ExpiredAt⟩ : DB)) ++
        credentials gs := by
  simp [credentials]

theorem credentials_append (a b : List database) :
    credentials (a ++ b) = credentials a ++ credentials b := by
  simp [credentials]

theorem upsert_map_perm (ID : Int) (Name : String) (ExpiredAt : Option Time) (u : user)
    (acc : List database) :
    (acc.map (fun g => g.ID)).Nodup → (∃ d ∈ acc, d.ID = ID) →
    (∀ g ∈ acc, g.ID = ID → g.Name = Name ∧ g.ExpiredAt = ExpiredAt) →
    (credentials (acc.map
        (fun d => if d.ID = ID then { d with Users := d.Users ++ [u] } else d))).Perm
      (credentials acc ++ [⟨Name, u.Username, "", ExpiredAt⟩]) := by
  induction acc with
  | nil =>
    intro _ hex _
    obtain ⟨d, hd, -⟩ := hex
    simp at hd
  | cons g rest ih =>
    intro hnd hex hc
    rw [List.map_cons, List.nodup_cons] at hnd
    obtain ⟨hg, hrest⟩ := hnd
    by_cases hid : g.ID = ID
    · have hfix : rest.map
          (fun d => if d.ID = ID then { d with Users := d.Users ++ [u] } else d) = rest := by
        conv_rhs => rw [← List.map_id rest]
        apply List.map_congr_left
        intro d hd
        have hne : d.ID ≠ ID := by
          intro h
          exact hg (List.mem_map.mpr ⟨d, hd, by rw [h, hid]⟩)
        simp [hne]
      obtain ⟨hn, he⟩ := hc g (List.mem_cons_self _ _) hid
      rw [List.map_cons, hfix, if_pos hid, credentials_cons, credentials_cons]
      simp only [List.map_append, List.map_cons, List.map_nil, hn, he, List.append_assoc]
      exact List.Perm.append_left _ List.perm_append_comm
    · have hex2 : ∃ d ∈ rest, d.ID = ID := by
        obtain ⟨d, hd, hdid⟩ := hex
        rcases List.mem_cons.mp hd with h | h
        · rw [h] at hdid; exact absurd hdid hid
        · exact ⟨d, h, hdid⟩
      have ih2 := ih hrest hex2 (fun g0 h0 => hc g0 (List.mem_cons_of_mem _ h0))
      rw [List.map_cons, if_neg hid, credentials_cons, credentials_cons, List.append_assoc]
      exact List.Perm.append_left _ ih2

theorem upsert_perm (acc : List database) (ID : Int) (Name : String)
    (ExpiredAt : Option Time) (u : user) (hnd : (acc.map (fun g => g.ID)).Nodup)
    (hc : ∀ g ∈ acc, g.ID = ID → g.Name = Name ∧ g.ExpiredAt = ExpiredAt) :
    (credentials (upsert acc ID Name ExpiredAt u)).Perm
      (credentials acc ++ [⟨Name, u.Username, "", ExpiredAt⟩]) := by
  unfold upsert
  split
  · rename_i hex
    exact upsert_map_perm ID Name ExpiredAt u acc hnd hex hc
  · rw [credentials_append]
    simp [credentials]

theorem upsert_nodup (acc : List database) (ID : Int) (Name : String)
    (ExpiredAt : Option Time) (u : user) (hnd : (acc.map (fun g => g.ID)).Nodup) :
    ((upsert acc ID Name ExpiredAt u).map (fun g => g.ID)).Nodup := by
  unfold upsert
  split
  · have hids : (acc.map
        (fun d => if d.ID = ID then { d with Users := d.Users ++ [u] } else d)).map
          (fun g => g.ID) = acc.map (fun g => g.ID) := by
      rw [List.map_map]
      apply List.map_congr_left
      intro d _
      simp only [Function.comp]
      split <;> rfl
    rw [hids]
    exact hnd
  · rename_i hex
    rw [List.map_append]
    refine List.Nodup.append hnd (List.nodup_singleton _) ?_
    simp only [List.map_cons, List.map_nil, List.disjoint_singleton, List.mem_map, not_exists,
      not_and]
    intro d hd hid
    exact hex ⟨d, hd, hid⟩

theorem upsert_names (acc : List database) (ID : Int) (Name : String)
    (ExpiredAt : Option Time) (u : user) (g1 : database)
    (h1 : g1 ∈ upsert acc ID Name ExpiredAt u) :
    (∃ g ∈ acc, g.ID = g1.ID ∧ g.Name = g1.Name ∧ g.ExpiredAt = g1.ExpiredAt) ∨
    (g1.ID = ID ∧ g1.Name = Name ∧ g1.ExpiredAt = ExpiredAt) := by
  unfold upsert at h1
  split at h1
  · obtain ⟨g, hg, hmap⟩ := List.mem_map.mp h1
    left
    refine ⟨g, hg, ?_⟩
    rw [← hmap]
    split <;> exact ⟨rfl, rfl, rfl⟩
  · rcases List.mem_append.mp h1 with h | h
    · exact Or.inl ⟨g1, h, rfl, rfl, rfl⟩
    · have h2 := List.mem_singleton.mp h
      subst h2
      exact Or.inr ⟨rfl, rfl, rfl⟩


theorem scanRows_perm (rows : List JoinRow) :
    ∀ acc groups, scanRows rows acc = .ok groups →
      (acc.map (fun g => g.ID)).Nodup →
      (∀ r1 ∈ rows, ∀ r2 ∈ rows, r1.dID = r2.dID →
        r1.dName = r2.dName ∧ r1.dExpiredAt = r2.dExpiredAt) →
      (∀ g ∈ acc, ∀ r ∈ rows, r.dID = g.ID → g.Name = r.dName ∧ g.ExpiredAt = r.dExpiredAt) →
      (credentials groups).Perm (credentials acc ++ rows.map rowCredential) := by
  induction rows with
  | nil =>
    intro acc groups h _ _ _
    simp only [scanRows, Except.ok.injEq] at h
    subst h
    simp
  | cons r rows ih =>
    intro acc groups h hnd hrows hacc
    unfold scanRows at h
    cases hu : r.uID with
    | none => rw [hu] at h; simp at h
    | some uid =>
      cases hn : r.uUsername with
      | none => rw [hu, hn] at h; simp at h
      | some uname =>
        rw [hu, hn] at h
        simp only at h
        have hperm := upsert_perm acc r.dID r.dName r.dExpiredAt ⟨uid, uname⟩ hnd
          (fun g hg hid => hacc g hg r (List.mem_cons_self _ _) hid.symm)
        have ih2 := ih _ _ h (upsert_nodup acc r.dID r.dName r.dExpiredAt ⟨uid, uname⟩ hnd)
          (fun r1 h1 r2 h2 => hrows r1 (List.mem_cons_of_mem _ h1) r2 (List.mem_cons_of_mem _ h2))
          (by
            intro g1 hg1 r2 hr2 hid
            rcases upsert_names acc r.dID r.dName r.dExpiredAt ⟨uid, uname⟩ g1 hg1 with
              ⟨g, hg, hgid, hgn, hge⟩ | ⟨hgid, hgn, hge⟩
            · rw [← hgn, ← hge]
              exact hacc g hg r2 (List.mem_cons_of_mem _ hr2) (by rw [hid, hgid])
            · rw [hgn, hge]
              exact hrows r (List.mem_cons_self _ _) r2 (List.mem_cons_of_mem _ hr2)
                (by rw [hid, hgid]))
        have hrc : rowCredential r = ⟨r.dName, uname, "", r.dExpiredAt⟩ := by
          simp [rowCredential, hn]
        refine ih2.trans ?_
        rw [List.map_cons, hrc]
        have h3 := List.Perm.append_right (rows.map rowCredential) hperm
        simpa [List.append_assoc] using h3

theorem joinUsers_columns (users : List UserRecord) (d : DatabaseRecord) (row : JoinRow)
    (hrow : row ∈ joinUsers users d) :
    row.dID = d.id ∧ row.dName = d.name ∧ row.dExpiredAt = d.expiredAt := by
  unfold joinUsers at hrow
  cases h : users.filter (fun u => decide (u.databaseId = d.id)) with
  | nil =>
    rw [h] at hrow
    have hr := List.mem_singleton.mp hrow
    subst hr
    exact ⟨rfl, rfl, rfl⟩
  | cons v vs =>
    rw [h] at hrow
    obtain ⟨u, -, hr⟩ := List.mem_map.mp hrow
    subst hr
    exact ⟨rfl, rfl, rfl⟩

theorem joinUsers_credentials (users : List UserRecord) (d : DatabaseRecord)
    (h : ∀ row ∈ joinUsers users d, row.uID ≠ none) :
    (joinUsers users d).map rowCredential =
      (users.filter (fun u => decide (u.databaseId = d.id))).map (fun u =>
        (⟨d.name, u.username, "", d.expiredAt⟩ : DB)) := by
  unfold joinUsers at h ⊢
  cases hf : users.filter (fun u => decide (u.databaseId = d.id)) with
  | nil =>
    rw [hf] at h
    exact absurd rfl (h _ (List.mem_singleton.mpr rfl))
  | cons v vs =>
    simp [rowCredential]

theorem selectExpired_consistent (t : Tables) (now : Time)
    (hpk : t.databases.Pairwise (fun a b => a.id ≠ b.id)) :
    ∀ r1 ∈ t.selectExpired now, ∀ r2 ∈ t.selectExpired now, r1.dID = r2.dID →
      r1.dName = r2.dName ∧ r1.dExpiredAt = r2.dExpiredAt := by
  intro r1 h1 r2 h2 hid
  obtain ⟨d1, hd1, -, hj1⟩ := (mem_selectExpired t now r1).mp h1
  obtain ⟨d2, hd2, -, hj2⟩ := (mem_selectExpired t now r2).mp h2
  obtain ⟨a1, b1, c1⟩ := joinUsers_columns _ _ _ hj1
  obtain ⟨a2, b2, c2⟩ := joinUsers_columns _ _ _ hj2
  have heq : d1 = d2 := by
    by_contra hne
    exact hpk.forall (fun _ _ h => Ne.symm h) hd1 hd2 hne (by rw [← a1, ← a2, hid])
  subst heq
  exact ⟨by rw [b1, b2], by rw [c1, c2]⟩

theorem selectExpired_credentials (t : Tables) (now : Time)
    (h : ∀ row ∈ t.selectExpired now, row.uID ≠ none) :
    (t.selectExpired now).map rowCredential = expiredPairings t now := by
  unfold expiredPairings
  unfold Tables.selectExpired
  rw [List.map_flatten, List.map_map]
  congr 1
  apply List.map_congr_left
  intro d hd
  obtain ⟨hd1, hd2⟩ := List.mem_filter.mp hd
  simp only [Function.comp]
  apply joinUsers_credentials
  intro row hrow
  exact h row ((mem_selectExpired t now row).mpr ⟨d, hd1, hd2, hrow⟩)


theorem credentials_password (groups : List database) :
    ∀ c ∈ credentials groups, c.Password = "" := by
  intro c hc
  unfold credentials at hc
  obtain ⟨l, hl, hcl⟩ := List.mem_flatten.mp hc
  obtain ⟨g, -, hg⟩ := List.mem_map.mp hl
  subst hg
  obtain ⟨v, -, hv⟩ := List.mem_map.mp hcl
  subst hv
  rfl

theorem List_ok (o : Oracle) (now : Time) (s : State) (dbs : List DB)
    (hok : (Postgres.List o now s).1 = .ok dbs) :
    ∃ groups, (list o now true s).1 = .ok groups ∧ dbs = credentials groups := by
  unfold Postgres.List at hok
  rcases hl : list o now true s with ⟨_ | groups, s1⟩
  · rw [hl] at hok
    simp at hok
  · rw [hl] at hok
    simp only [Result.ok.injEq] at hok
    exact ⟨groups, rfl, hok.symm⟩

theorem list_tables (o : Oracle) (now : Time) (b : Bool) (s : State) :
    (list o now b s).2.tables = s.tables := by
  unfold list
  cases b
  · simp only [Bool.false_eq_true, if_false]
    cases o s.trace .selectNoArgs <;> rfl
  · simp only [if_true]
    cases o s.trace (.selectExpired now) <;> rfl

/-- C14: a successful `List` returns, up to order, exactly the credentials of
the pairings of a database that is not deleted and has a non-null expiry
before `now` with each user whose `database_id` is its id, carrying the name
and the expiry of the database and the username of the user; it leaves the
store as it is. Every credential returned by `List`, and every credential
returned by a successful `DeleteExpired`, has an empty password. The ids of
`databases` are distinct (primary key). -/
theorem List_returns_expired_pairings (o : Oracle) (now : Time) (s : State) (dbs : List DB)
    (hok : (Postgres.List o now s).1 = .ok dbs)
    (hpk : s.tables.databases.Pairwise (fun a b => a.id ≠ b.id)) :
    dbs.Perm (expiredPairings s.tables now) ∧
    (∀ c ∈ dbs, c.Password = "") ∧
    (Postgres.List o now s).2.tables = s.tables ∧
    (∀ (o2 : Oracle) (p2 : Postgres) (now2 : Time) (s2 : State) (dbs2 : List DB),
      (DeleteExpired o2 p2 now2 s2).1 = .ok dbs2 → ∀ c ∈ dbs2, c.Password = "") := by
  obtain ⟨groups, hl, hdbs⟩ := List_ok o now s dbs hok
  have hscan := list_ok o now s groups hl
  refine ⟨?_, ?_, ?_, ?_⟩
  · have hsome : ∀ row ∈ s.tables.selectExpired now, row.uID ≠ none := by
      intro row hrow hnone
      obtain ⟨uid, -, huid, -⟩ := (scanRows_forward _ _ _ hscan).2 row hrow
      rw [hnone] at huid
      cases huid
    have hperm := scanRows_perm _ [] groups hscan (by simp)
      (selectExpired_consistent s.tables now hpk) (by simp)
    rw [hdbs, ← selectExpired_credentials s.tables now hsome]
    simpa [credentials] using hperm
  · rw [hdbs]
    exact credentials_password groups
  · unfold Postgres.List
    have ht := list_tables o now true s
    rcases hl2 : list o now true s with ⟨_ | g2, s1⟩
    · rw [hl2] at ht; exact ht
    · rw [hl2] at ht; exact ht
  · intro o2 p2 now2 s2 dbs2 hok2
    obtain ⟨groups2, -, hd2, -⟩ := DeleteExpired_ok o2 p2 now2 s2 dbs2 hok2
    rw [hd2]
    exact credentials_password groups2

theorem List_returns_expired_pairings_witness :
    ([⟨"acme", "bob", "", some 130⟩] : List DB).Perm (expiredPairings storeExpired.tables 200) ∧
    expiredPairings storeExpired.tables 200 = [⟨"acme", "bob", "", some 130⟩] :=
  ⟨(List_returns_expired_pairings allOk 200 storeExpired [⟨"acme", "bob", "", some 130⟩]
      (by decide) (by decide)).1,
   by decide⟩

end Shards
